import Mathlib

/-!
# Caching proxy: the `/proxy` handler of `test-server-extended.js`

A shallow embedding of the request handler registered with
`app.all('/proxy', async (req, res) => ...)` in `src/test-server-extended.js`
(and of the smaller handler of `src/test-server.js`), together with the
collaborators it calls.

* The handler is translated statement by statement into `handle`.
* The collaborators that live outside the sources are made explicit:
  the `URL` constructor and `JSON.parse` are fields of `Env`, the network
  behind `axios` is a function `UpstreamCall → NetResult`, the wall clock
  is a parameter, and the cache object is the `Store` below.
* Every call the handler makes on the cache or on the network is recorded,
  in order, in a trace of `Effect`s, and every `res.set` call is recorded,
  in order, in `Response.sets`.

Query parameters and header values are strings (or absent).  The handler
is run to completion before the next request starts: interleavings of
concurrent requests at the `await` are outside this development.  A response
is what the handler hands to Express: the status, the `res.set` calls and the
value sent.  The headers added by the middlewares in front of the handler, the
headers `res.send` computes itself (length, entity tag) and the default charset
Express may append to a content type are not represented.
-/

namespace CachingProxy

/-! ## JavaScript values used by the handler -/

/-- Raw body bytes (a Node `Buffer`), one number per byte. -/
abbrev Bytes := List Nat

/-- The header entries of a JavaScript header object, in enumeration order. -/
abbrev Headers := List (String × String)

/-- A value produced by `JSON.parse`; it is only moved around by the handler. -/
structure Json where
  text : String
  deriving DecidableEq, Repr

/-- JavaScript truthiness of a value that is a string or `undefined`. -/
def truthy : Option String → Bool
  | none => false
  | some s => s != ""

/-- The expression `a || b` for `a` a string or `undefined` and `b` a string. -/
def orElse (a : Option String) (b : String) : String :=
  match a with
  | some s => if s != "" then s else b
  | none => b

/-- ASCII lower-casing, as applied by Node to header names. -/
def lower (s : String) : String :=
  String.mk (s.data.map Char.toLower)

/-- The test `xs` starts with `p`, on character lists. -/
def startsWithChars : List Char → List Char → Bool
  | [], _ => true
  | _ :: _, [] => false
  | p :: ps, x :: xs => p == x && startsWithChars ps xs

/-- The test that `p` occurs somewhere in `xs`, on character lists. -/
def includesChars (p : List Char) : List Char → Bool
  | [] => startsWithChars p []
  | x :: xs => startsWithChars p (x :: xs) || includesChars p xs

/-- The method `String.prototype.includes`. -/
def includes (s p : String) : Bool :=
  includesChars p.data s.data

/-! ### `parseInt` with no radix argument -/

/-- White space skipped by `parseInt` at the start of its input: the `WhiteSpace`
and `LineTerminator` code points of ECMAScript, which include every Unicode space
separator. -/
def isJsSpace (c : Char) : Bool :=
  -- tab, line feed, vertical tab, form feed, carriage return
  (9 ≤ c.toNat && c.toNat ≤ 13)
    -- space, no-break space, Ogham space mark
    || c.toNat == 32 || c.toNat == 160 || c.toNat == 5760
    -- U+2000 to U+200A, line separator, paragraph separator
    || (8192 ≤ c.toNat && c.toNat ≤ 8202) || c.toNat == 8232 || c.toNat == 8233
    -- narrow no-break space, medium mathematical space, ideographic space
    || c.toNat == 8239 || c.toNat == 8287 || c.toNat == 12288
    -- byte order mark
    || c.toNat == 65279

/-- The value of a character as a digit in the given radix, when it is one. -/
def digitValue (radix : Nat) (c : Char) : Option Nat :=
  let n := c.toNat
  let v : Option Nat :=
    if 48 ≤ n ∧ n ≤ 57 then some (n - 48)
    else if 97 ≤ n ∧ n ≤ 122 then some (n - 87)
    else if 65 ≤ n ∧ n ≤ 90 then some (n - 55)
    else none
  match v with
  | some d => if d < radix then some d else none
  | none => none

/-- Reads the longest prefix of digits; `none` when there is no digit at all. -/
def readDigits (radix : Nat) : List Char → Option Nat → Option Nat
  | [], acc => acc
  | c :: cs, acc =>
    match digitValue radix c with
    | some d => readDigits radix cs (some (acc.getD 0 * radix + d))
    | none => acc

/-- Removes leading white space. -/
def dropSpaces : List Char → List Char
  | [] => []
  | c :: cs => if isJsSpace c then dropSpaces cs else c :: cs

/-- The function `parseInt(s)`: `none` stands for `NaN`.  The result is the exact
integer read from the digits.  A JavaScript number holds it exactly as long as
its magnitude is at most 2^53 (see `exactNumber`); the rounding of larger values
is not represented. -/
def parseInt (s : String) : Option Int :=
  let body := dropSpaces s.data
  let (neg, rest) : Bool × List Char :=
    match body with
    | '-' :: r => (true, r)
    | '+' :: r => (false, r)
    | r => (false, r)
  let (radix, digits) : Nat × List Char :=
    match rest with
    | '0' :: 'x' :: r => (16, r)
    | '0' :: 'X' :: r => (16, r)
    | r => (10, r)
  match readDigits radix digits none with
  | some n => some (if neg then - (n : Int) else (n : Int))
  | none => none

/-! ## Requests, responses and the upstream -/

/-- The parts of the Express request read by the handler. -/
structure Request where
  /-- The HTTP method `req.method`. -/
  method : String
  /-- The query parameter `req.query.url`. -/
  queryUrl : Option String
  /-- The query parameter `req.query.method`. -/
  queryMethod : Option String
  /-- The query parameter `req.query.ttl`. -/
  queryTtl : Option String
  /-- The header object `req.headers`; Node delivers the names in lower case. -/
  headers : Headers
  /-- The parsed body `req.body`, passed on unchanged. -/
  body : String
  deriving DecidableEq, Repr

/-- What is handed to `res.send` or `res.json`. -/
inductive Body where
  /-- A value obtained from `JSON.parse`. -/
  | json (v : Json)
  /-- A buffer sent as it was received. -/
  | raw (b : Bytes)
  /-- The object `{ error: message }` given to `res.json`. -/
  | error (message : String)
  deriving DecidableEq, Repr

/-- The response built on `res`: the status given to `res.status`, the
`res.set` calls in the order they were made, and the body sent. -/
structure Response where
  status : Nat
  sets : Headers
  body : Body
  deriving DecidableEq, Repr

/-- A header entry has the given name, compared without regard to case. -/
def sameName (name : String) (e : String × String) : Bool :=
  lower e.1 == lower name

/-- The header table of Node after one more `setHeader`: names are compared
without regard to case and a later value replaces an earlier one. -/
def setHeader (hs : Headers) (name value : String) : Headers :=
  hs.filter (fun e => !sameName name e) ++ [(name, value)]

/-- The header table after a sequence of `res.set` calls. -/
def headerTable (sets : Headers) : Headers :=
  sets.foldl (fun hs e => setHeader hs e.1 e.2) []

/-- The headers carried by a response. -/
def Response.headers (r : Response) : Headers :=
  headerTable r.sets

/-- The value of a header of a response, looked up without regard to case. -/
def Response.getHeader (r : Response) (name : String) : Option String :=
  (r.headers.find? (sameName name)).map Prod.snd

/-- The number of headers of a response with the given name. -/
def Response.countHeader (r : Response) (name : String) : Nat :=
  r.headers.countP (sameName name)

/-- The object `responseObj` kept in the cache. -/
structure CachedResponse where
  status : Nat
  headers : Headers
  data : Body
  deriving DecidableEq, Repr

/-- The configuration object given to `axios`. -/
structure UpstreamCall where
  method : String
  url : String
  headers : Headers
  data : String
  deriving DecidableEq, Repr

/-- What the network does with a call: a final HTTP response (redirects
already followed) or a transport failure (network error, time-out, DNS). -/
inductive NetResult where
  | response (status : Nat) (headers : Headers) (data : Bytes)
  | failure (message : String)
  deriving DecidableEq, Repr

/-- The settled promise of `axios`. -/
inductive AxiosResult where
  /-- The promise resolved with `response`. -/
  | resolved (status : Nat) (headers : Headers) (data : Bytes)
  /-- The promise rejected with `error`; `status` is `error.response?.status`. -/
  | rejected (status : Option Nat) (message : String)
  deriving DecidableEq, Repr

/-- The option `validateStatus: status => status < 500` of both handlers. -/
def validateStatus (status : Nat) : Bool :=
  decide (status < 500)

/-- The call `await axios({ ..., validateStatus })`: a response whose status
passes `validateStatus` resolves the promise, any other outcome rejects it. -/
def axios (net : UpstreamCall → NetResult) (call : UpstreamCall) : AxiosResult :=
  match net call with
  | .response status headers data =>
    if validateStatus status then .resolved status headers data
    else .rejected (some status) ("Request failed with status code " ++ toString status)
  | .failure message => .rejected none message

/-- The functions of the platform that the handlers call and whose definition
is not part of the sources. -/
structure Env where
  /-- The constructor `new URL(url)` returns instead of throwing. -/
  validURL : String → Bool
  /-- The call `JSON.parse(data.toString('utf8'))`; `none` when it throws. -/
  jsonParse : Bytes → Option Json
  /-- The decoding of a body by `axios` when no `responseType` is given. -/
  axiosData : Headers → Bytes → Body
  /-- The default retention window of the cache in seconds; `0` keeps an
  entry without limit. -/
  stdTTL : Int

/-! ## The cache store -/

/-- Modelled from the spec: the entry type of the cache object (the `node-cache`
package, which is not part of the sources): the stored value with its insertion
time in milliseconds and its retention in seconds. -/
structure CacheEntry where
  value : CachedResponse
  insertedAt : Int
  ttlSeconds : Int
  deriving DecidableEq, Repr

/-- Modelled from the spec: the cache object (the `node-cache` package, which is
not part of the sources), a mapping from cache key to cache entry. -/
abbrev Store := String → Option CacheEntry

/-- The store of a freshly started process. -/
def Store.empty : Store := fun _ => none

/-- The store with the entry at one key replaced. -/
def Store.update (s : Store) (key : String) (e : Option CacheEntry) : Store :=
  fun k => if k = key then e else s k

/-- Modelled from the spec: the TTL of an entry has elapsed since `insertedAt`
(the cache object is not part of the sources).  A retention of `0` has no limit. -/
def expired (now : Int) (e : CacheEntry) : Bool :=
  e.ttlSeconds != 0 && decide (e.insertedAt + e.ttlSeconds * 1000 < now)

/-- Modelled from the spec: the operation `get(key)` of the cache object (not part
of the sources).  It returns absent if the key was never set or its TTL has
elapsed; the expiry check is made on the read, and removes the expired entry. -/
def cacheGet (now : Int) (s : Store) (key : String) : Option CachedResponse × Store :=
  match s key with
  | some e => if expired now e then (none, s.update key none) else (some e.value, s)
  | none => (none, s)

/-- Modelled from the spec: the retention given to an entry by `set` (the cache
object is not part of the sources): a TTL of zero or an absent one (`NaN`, written
`none`) means the default retention window. -/
def retentionOf (env : Env) (ttl : Option Int) : Int :=
  match ttl with
  | some t => if t = 0 then env.stdTTL else t
  | none => env.stdTTL

/-- Modelled from the spec: the operation `set(key, entry, ttlSeconds)` of the cache
object (not part of the sources).  It overwrites unconditionally. -/
def cacheSet (env : Env) (now : Int) (s : Store) (key : String) (v : CachedResponse)
    (ttl : Option Int) : Store :=
  s.update key (some { value := v, insertedAt := now, ttlSeconds := retentionOf env ttl })

/-- Modelled from the spec: the operation `delete(key)` of the cache object (not
part of the sources), a no-op if the key is absent. -/
def cacheDel (s : Store) (key : String) : Store :=
  s.update key none

/-- Modelled from the spec: one sweep of the background reaper of the cache object
(not part of the sources), which evicts the entries whose TTL has elapsed. -/
def reap (now : Int) (s : Store) : Store :=
  fun k =>
    match s k with
    | some e => if expired now e then none else some e
    | none => none

/-- The calls a handler makes on the cache object and on the network. -/
inductive Effect where
  | cacheGet (key : String)
  | cacheDel (key : String)
  | cacheSet (key : String) (value : CachedResponse) (ttl : Option Int)
  | upstream (call : UpstreamCall)
  deriving DecidableEq, Repr

/-- The outcome of running a handler on one request: the response, the store
it leaves behind and the calls it made, in order. -/
structure Result where
  res : Response
  store : Store
  trace : List Effect

/-! ## The handler of `test-server-extended.js` -/

/-- The `catch (error)` block of both handlers: the status is
`error.response?.status || 500`, and the message is hidden when that is 500. -/
def catchError (status : Option Nat) (errorMessage : String) : Nat × Body :=
  let status : Nat :=
    match status with
    | some n => if n != 0 then n else 500
    | none => 500
  let message := if status = 500 then "Internal Server Error" else errorMessage
  (status, .error message)

/-- The header object sent upstream: a copy of `req.headers` after
`delete headers.host`, `delete headers.connection` and
`delete headers['content-length']`. -/
def forwardHeaders (headers : Headers) : Headers :=
  headers.filter (fun e => e.1 != "host" && e.1 != "connection" && e.1 != "content-length")

/-- The expression `req.query.ttl ? parseInt(req.query.ttl) : 3600`; `none` is `NaN`. -/
def ttlOf (queryTtl : Option String) : Option Int :=
  match queryTtl with
  | some s => if s != "" then parseInt s else some 3600
  | none => some 3600

/-- The cache key ``url + (method !== 'GET' ? `-${method}` : '')``. -/
def cacheKeyOf (url method : String) : String :=
  url ++ (if method != "GET" then "-" ++ method else "")

/-- The value `responseData` computed from the upstream response ("Parse the
response based on content type"): the parsed JSON value when the content type
includes `application/json`, the buffer otherwise; `none` when `JSON.parse` throws. -/
def responseDataOf (env : Env) (headers : Headers) (data : Bytes) : Option Body :=
  let contentType := (headers.lookup "content-type").getD ""
  if includes contentType "application/json" then (env.jsonParse data).map Body.json
  else some (.raw data)

/-- The `try { ... } catch (error) { ... }` block that ends the handler.  It is
entered with the `res.set` calls made so far, with the store and trace left by
the first half, and with the clock reading `nowSet` at which a response of the
upstream is back. -/
def forwardAndRespond (env : Env) (net : UpstreamCall → NetResult) (nowSet : Int)
    (req : Request) (method url cacheKey : String) (cacheControl : Option String)
    (ttl : Option Int) (sets : Headers) (store : Store) (trace : List Effect) : Result :=
  let call : UpstreamCall :=
    { method := method, url := url, headers := forwardHeaders req.headers, data := req.body }
  let trace := trace ++ [.upstream call]
  match axios net call with
  | .resolved status headers data =>
    match responseDataOf env headers data with
    | some responseData =>
      let responseObj : CachedResponse :=
        { status := status, headers := headers, data := responseData }
      if status < 400 ∧ cacheControl ≠ some "no-store" then
        { res := { status := status, sets := sets ++ headers, body := responseData }
          store := cacheSet env nowSet store cacheKey responseObj ttl
          trace := trace ++ [.cacheSet cacheKey responseObj ttl] }
      else
        { res := { status := status, sets := sets ++ headers, body := responseData }
          store := store
          trace := trace }
    | none =>
      -- `JSON.parse` threw: the error has no `response`
      let (status, body) := catchError none "Unexpected token in JSON"
      { res := { status := status, sets := sets, body := body }, store := store, trace := trace }
  | .rejected status message =>
    let (status, body) := catchError status message
    { res := { status := status, sets := sets, body := body }, store := store, trace := trace }

/-- The handler `app.all('/proxy', async (req, res) => ...)`.  `now` is the clock
when the cache is read and `now + latency` the clock when the upstream has
answered; both are in milliseconds. -/
def handle (env : Env) (net : UpstreamCall → NetResult) (now : Int) (latency : Nat)
    (store : Store) (req : Request) : Result :=
  let method := orElse req.queryMethod req.method
  let ttl := ttlOf req.queryTtl
  if !truthy req.queryUrl then
    { res := { status := 400, sets := [], body := .error "URL is required" }
      store := store, trace := [] }
  else
    let url := req.queryUrl.getD ""
    if !env.validURL url then
      { res := { status := 400, sets := [], body := .error "Invalid URL" }
        store := store, trace := [] }
    else
      let cacheControl := req.headers.lookup "cache-control"
      let cacheKey := cacheKeyOf url method
      let (cachedResponse, store) := cacheGet now store cacheKey
      let trace := [Effect.cacheGet cacheKey]
      if cacheControl = some "no-cache" then
        forwardAndRespond env net (now + latency) req method url cacheKey cacheControl ttl
          [("X-Cache", "BYPASS")] store trace
      else if cacheControl = some "no-store" then
        forwardAndRespond env net (now + latency) req method url cacheKey cacheControl ttl
          [("X-Cache", "NOCACHE")] store trace
      else if req.headers.lookup "x-cache-invalidate" = some "true" then
        forwardAndRespond env net (now + latency) req method url cacheKey cacheControl ttl
          [("X-Cache", "INVALIDATED")] (cacheDel store cacheKey) (trace ++ [.cacheDel cacheKey])
      else
        match cachedResponse with
        | some cached =>
          { res := { status := cached.status, sets := ("X-Cache", "HIT") :: cached.headers
                     body := cached.data }
            store := store, trace := trace }
        | none =>
          forwardAndRespond env net (now + latency) req method url cacheKey cacheControl ttl
            [("X-Cache", "MISS")] store trace

/-! ## The handler of `test-server.js` -/

/-- The handler `app.get('/proxy', async (req, res) => ...)` of `test-server.js`. -/
def handleBasic (env : Env) (net : UpstreamCall → NetResult) (now : Int) (latency : Nat)
    (store : Store) (req : Request) : Result :=
  if !truthy req.queryUrl then
    { res := { status := 400, sets := [], body := .error "URL is required" }
      store := store, trace := [] }
  else
    let url := req.queryUrl.getD ""
    if !env.validURL url then
      { res := { status := 400, sets := [], body := .error "Invalid URL" }
        store := store, trace := [] }
    else
      let cacheKey := url
      let (cachedResponse, store) := cacheGet now store cacheKey
      let trace := [Effect.cacheGet cacheKey]
      match cachedResponse with
      | some cached =>
        { res := { status := cached.status, sets := ("X-Cache", "HIT") :: cached.headers
                   body := cached.data }
          store := store, trace := trace }
      | none =>
        let call : UpstreamCall := { method := "GET", url := url, headers := [], data := "" }
        let trace := trace ++ [.upstream call]
        match axios net call with
        | .resolved status headers data =>
          let responseData : CachedResponse :=
            { status := status, headers := headers, data := env.axiosData headers data }
          if status < 400 then
            { res := { status := status, sets := [("X-Cache", "MISS")]
                       body := responseData.data }
              store := cacheSet env (now + latency) store cacheKey responseData none
              trace := trace ++ [.cacheSet cacheKey responseData none] }
          else
            { res := { status := status, sets := [("X-Cache", "MISS")]
                       body := responseData.data }
              store := store, trace := trace }
        | .rejected status message =>
          let (status, body) := catchError status message
          { res := { status := status, sets := [], body := body }, store := store, trace := trace }

/-! ## Sample data

An environment and a few requests on which the definitions are evaluated.  The
sample validator and parser agree with `new URL` and `JSON.parse` on the strings
that occur below. -/

/-- The JSON text of the object with the single member `id` of value 1. -/
def sampleJsonText : String := "\x7b\"id\":1\x7d"

/-- The bytes of `sampleJsonText`. -/
def sampleJsonBytes : Bytes := sampleJsonText.data.map Char.toNat

/-- A sample platform: absolute `http:` and `https:` URLs are accepted, and the
only JSON text known to the parser is `sampleJsonText`. -/
def sampleEnv : Env where
  validURL := fun u =>
    startsWithChars "http://".data u.data || startsWithChars "https://".data u.data
  jsonParse := fun b =>
    if b = sampleJsonBytes then some ⟨sampleJsonText⟩ else none
  axiosData := fun _ b => .raw b
  stdTTL := 0

/-- A request `GET /proxy?url=...` with no other parameter and no header. -/
def getOf (url : String) : Request :=
  { method := "GET", queryUrl := some url, queryMethod := none, queryTtl := none
    headers := [], body := "" }

/-- The same request with `&method=...` added to the query. -/
def withMethod (req : Request) (method : String) : Request :=
  { req with queryMethod := some method }

/-- The same request with `&ttl=...` added to the query. -/
def withTtl (req : Request) (ttl : String) : Request :=
  { req with queryTtl := some ttl }

/-- The same request with one more header. -/
def withHeader (req : Request) (name value : String) : Request :=
  { req with headers := req.headers ++ [(name, value)] }

/-- An upstream that answers every call with the same response. -/
def always (status : Nat) (headers : Headers) (data : Bytes) : UpstreamCall → NetResult :=
  fun _ => .response status headers data

/-! ## Vocabulary of the statements -/

/-- The target of a request: the `url` query parameter. -/
def Request.target (req : Request) : String :=
  req.queryUrl.getD ""

/-- The method used for a request: `req.query.method || req.method`. -/
def Request.effectiveMethod (req : Request) : String :=
  orElse req.queryMethod req.method

/-- The cache key the handler derives for a request. -/
def Request.key (req : Request) : String :=
  cacheKeyOf req.target req.effectiveMethod

/-- The call the handler makes on the upstream for a request. -/
def Request.call (req : Request) : UpstreamCall :=
  { method := req.effectiveMethod, url := req.target
    headers := forwardHeaders req.headers, data := req.body }

/-- A request passes the two validation steps of the handler. -/
def accepted (env : Env) (req : Request) : Bool :=
  truthy req.queryUrl && env.validURL req.target

/-- The key a cache call is made on. -/
def Effect.key? : Effect → Option String
  | .cacheGet k => some k
  | .cacheDel k => some k
  | .cacheSet k _ _ => some k
  | .upstream _ => none

/-- An effect is a call on the upstream. -/
def Effect.isUpstream : Effect → Bool
  | .upstream _ => true
  | _ => false

/-- An effect is a write of the cache. -/
def Effect.isSet : Effect → Bool
  | .cacheSet _ _ _ => true
  | _ => false

/-- An effect is a deletion from the cache. -/
def Effect.isDel : Effect → Bool
  | .cacheDel _ => true
  | _ => false

/-- One request of a sequence, with the network and the clock it meets. -/
structure Step where
  net : UpstreamCall → NetResult
  now : Int
  latency : Nat
  req : Request

/-- The store after a sequence of requests handled one after the other. -/
def run (env : Env) (store : Store) (steps : List Step) : Store :=
  steps.foldl (fun s st => (handle env st.net st.now st.latency s st.req).store) store

/-- The store after the background reaper has swept at each of the given times. -/
def sweep (store : Store) (times : List Int) : Store :=
  times.foldl (fun s t => reap t s) store

/-- An integer that a JavaScript number holds exactly: its magnitude is at most 2^53. -/
def exactNumber (t : Int) : Bool :=
  decide (t.natAbs ≤ 2 ^ 53)

/-- The four directives of the specification (section 3). -/
inductive Directive where
  | USE_CACHE
  | BYPASS
  | NO_STORE
  | INVALIDATE
  deriving DecidableEq, Repr

/-- The directive interpreter as the specification words it (section 4.2):
the first matching rule wins. -/
def interpret (requestHeaders : Headers) : Directive :=
  if requestHeaders.lookup "cache-control" = some "no-cache" then .BYPASS
  else if requestHeaders.lookup "cache-control" = some "no-store" then .NO_STORE
  else if requestHeaders.lookup "x-cache-invalidate" = some "true" then .INVALIDATE
  else .USE_CACHE

/-- The `X-Cache` label the specification attaches to a directive; under
`USE_CACHE` it depends on whether the lookup succeeded. -/
def Directive.label (d : Directive) (lookupSucceeded : Bool) : String :=
  match d with
  | .BYPASS => "BYPASS"
  | .NO_STORE => "NOCACHE"
  | .INVALIDATE => "INVALIDATED"
  | .USE_CACHE => if lookupSucceeded then "HIT" else "MISS"

/-! ## Theorems -/

/-! ### Strings -/

theorem append_left_cancel_string (a b c : String) (h : a ++ b = a ++ c) : b = c := by
  have h1 := congrArg String.data h
  simp only [String.data_append] at h1
  exact String.ext (List.append_cancel_left h1)

theorem append_right_cancel_string (a b c : String) (h : a ++ c = b ++ c) : a = b := by
  have h1 := congrArg String.data h
  simp only [String.data_append] at h1
  exact String.ext (List.append_cancel_right h1)

theorem append_ne_self_string (a b : String) (hb : b ≠ "") : a ++ b ≠ a := by
  intro h
  have h1 := congrArg String.length h
  simp only [String.length_append] at h1
  have h2 : b.length = 0 := by omega
  cases b with
  | mk l =>
    have h3 : l = [] := List.length_eq_zero.mp h2
    subst h3
    exact hb rfl

theorem dash_append_ne_empty (m : String) : "-" ++ m ≠ "" := by
  intro h
  have h1 := congrArg String.data h
  simp only [String.data_append] at h1
  exact List.cons_ne_nil _ _ h1

/-! ### The branches of the handler -/

/-- A request that fails validation is answered at once. -/
theorem handle_not_accepted (env : Env) (net : UpstreamCall → NetResult) (now : Int)
    (latency : Nat) (store : Store) (req : Request) (h : accepted env req = false) :
    handle env net now latency store req =
      { res := { status := 400, sets := []
                 body := .error (if truthy req.queryUrl then "Invalid URL" else "URL is required") }
        store := store, trace := [] } := by
  unfold accepted Request.target at h
  unfold handle
  cases hu : truthy req.queryUrl
  · simp
  · simp [hu] at h
    simp [h]

/-- The same for the handler of `test-server.js`. -/
theorem handleBasic_not_accepted (env : Env) (net : UpstreamCall → NetResult) (now : Int)
    (latency : Nat) (store : Store) (req : Request) (h : accepted env req = false) :
    handleBasic env net now latency store req =
      { res := { status := 400, sets := []
                 body := .error (if truthy req.queryUrl then "Invalid URL" else "URL is required") }
        store := store, trace := [] } := by
  unfold accepted Request.target at h
  unfold handleBasic
  cases hu : truthy req.queryUrl
  · simp
  · simp [hu] at h
    simp [h]

/-- An accepted request whose cache-control is `no-cache` is forwarded. -/
theorem handle_bypass (env : Env) (net : UpstreamCall → NetResult) (now : Int)
    (latency : Nat) (store : Store) (req : Request) (h : accepted env req = true)
    (hcc : req.headers.lookup "cache-control" = some "no-cache") :
    handle env net now latency store req =
      forwardAndRespond env net (now + latency) req req.effectiveMethod req.target req.key
        (some "no-cache") (ttlOf req.queryTtl) [("X-Cache", "BYPASS")]
        (cacheGet now store req.key).2 [.cacheGet req.key] := by
  unfold accepted Request.target at h
  simp only [Bool.and_eq_true] at h
  unfold handle
  simp [h.1, h.2, hcc, Request.key, Request.target, Request.effectiveMethod]

/-- An accepted request whose cache-control is `no-store` is forwarded. -/
theorem handle_nostore (env : Env) (net : UpstreamCall → NetResult) (now : Int)
    (latency : Nat) (store : Store) (req : Request) (h : accepted env req = true)
    (hcc : req.headers.lookup "cache-control" = some "no-store") :
    handle env net now latency store req =
      forwardAndRespond env net (now + latency) req req.effectiveMethod req.target req.key
        (some "no-store") (ttlOf req.queryTtl) [("X-Cache", "NOCACHE")]
        (cacheGet now store req.key).2 [.cacheGet req.key] := by
  unfold accepted Request.target at h
  simp only [Bool.and_eq_true] at h
  unfold handle
  simp [h.1, h.2, hcc, Request.key, Request.target, Request.effectiveMethod]

/-- An accepted request with `x-cache-invalidate: true` and no earlier directive
deletes the entry and is forwarded. -/
theorem handle_invalidate (env : Env) (net : UpstreamCall → NetResult) (now : Int)
    (latency : Nat) (store : Store) (req : Request) (h : accepted env req = true)
    (h1 : req.headers.lookup "cache-control" ≠ some "no-cache")
    (h2 : req.headers.lookup "cache-control" ≠ some "no-store")
    (h3 : req.headers.lookup "x-cache-invalidate" = some "true") :
    handle env net now latency store req =
      forwardAndRespond env net (now + latency) req req.effectiveMethod req.target req.key
        (req.headers.lookup "cache-control") (ttlOf req.queryTtl) [("X-Cache", "INVALIDATED")]
        (cacheDel (cacheGet now store req.key).2 req.key)
        [.cacheGet req.key, .cacheDel req.key] := by
  unfold accepted Request.target at h
  simp only [Bool.and_eq_true] at h
  unfold handle
  simp [h.1, h.2, h1, h2, h3, Request.key, Request.target, Request.effectiveMethod]

/-- An accepted request with no directive whose lookup succeeds is served from
the cache. -/
theorem handle_hit (env : Env) (net : UpstreamCall → NetResult) (now : Int)
    (latency : Nat) (store : Store) (req : Request) (cached : CachedResponse)
    (h : accepted env req = true)
    (h1 : req.headers.lookup "cache-control" ≠ some "no-cache")
    (h2 : req.headers.lookup "cache-control" ≠ some "no-store")
    (h3 : req.headers.lookup "x-cache-invalidate" ≠ some "true")
    (hc : (cacheGet now store req.key).1 = some cached) :
    handle env net now latency store req =
      { res := { status := cached.status, sets := ("X-Cache", "HIT") :: cached.headers
                 body := cached.data }
        store := (cacheGet now store req.key).2, trace := [.cacheGet req.key] } := by
  unfold accepted Request.target at h
  simp only [Bool.and_eq_true] at h
  unfold Request.key Request.target Request.effectiveMethod at hc
  unfold handle
  simp [h.1, h.2, h1, h2, h3, hc, Request.key, Request.target, Request.effectiveMethod]

/-- An accepted request with no directive whose lookup fails is forwarded. -/
theorem handle_miss (env : Env) (net : UpstreamCall → NetResult) (now : Int)
    (latency : Nat) (store : Store) (req : Request)
    (h : accepted env req = true)
    (h1 : req.headers.lookup "cache-control" ≠ some "no-cache")
    (h2 : req.headers.lookup "cache-control" ≠ some "no-store")
    (h3 : req.headers.lookup "x-cache-invalidate" ≠ some "true")
    (hc : (cacheGet now store req.key).1 = none) :
    handle env net now latency store req =
      forwardAndRespond env net (now + latency) req req.effectiveMethod req.target req.key
        (req.headers.lookup "cache-control") (ttlOf req.queryTtl) [("X-Cache", "MISS")]
        (cacheGet now store req.key).2 [.cacheGet req.key] := by
  unfold accepted Request.target at h
  simp only [Bool.and_eq_true] at h
  unfold Request.key Request.target Request.effectiveMethod at hc
  unfold handle
  simp [h.1, h.2, h1, h2, h3, hc, Request.key, Request.target, Request.effectiveMethod]

/-! ### The forwarding block -/

/-- The promise of `axios` resolves exactly on a response with status below 500. -/
theorem axios_resolved_iff (net : UpstreamCall → NetResult) (call : UpstreamCall)
    (status : Nat) (headers : Headers) (data : Bytes) :
    axios net call = .resolved status headers data ↔
      net call = .response status headers data ∧ status < 500 := by
  unfold axios validateStatus
  cases hn : net call with
  | response s h d =>
    by_cases hs : s < 500
    · simp [hs]
      rintro rfl _ _
      exact hs
    · simp [hs]
      rintro rfl _ _
      omega
  | failure m => simp

/-- The forwarding block when the upstream response is stored. -/
theorem forward_stored (env : Env) (net : UpstreamCall → NetResult) (nowSet : Int)
    (req : Request) (cacheKey : String) (cacheControl : Option String) (ttl : Option Int)
    (sets : Headers) (store : Store) (trace : List Effect)
    (status : Nat) (headers : Headers) (data : Bytes) (responseData : Body)
    (hnet : net req.call = .response status headers data)
    (hparse : responseDataOf env headers data = some responseData)
    (hstatus : status < 400) (hcc : cacheControl ≠ some "no-store") :
    forwardAndRespond env net nowSet req req.effectiveMethod req.target cacheKey cacheControl
        ttl sets store trace =
      { res := { status := status, sets := sets ++ headers, body := responseData }
        store := cacheSet env nowSet store cacheKey
          { status := status, headers := headers, data := responseData } ttl
        trace := trace ++ [.upstream req.call,
          .cacheSet cacheKey { status := status, headers := headers, data := responseData } ttl] } := by
  have hax : axios net req.call = .resolved status headers data :=
    (axios_resolved_iff net req.call status headers data).2 ⟨hnet, by omega⟩
  unfold Request.call at hax
  unfold forwardAndRespond
  simp [hax, hparse, hstatus, hcc, Request.call]

/-- The forwarding block when the upstream response is passed on but not stored. -/
theorem forward_not_stored (env : Env) (net : UpstreamCall → NetResult) (nowSet : Int)
    (req : Request) (cacheKey : String) (cacheControl : Option String) (ttl : Option Int)
    (sets : Headers) (store : Store) (trace : List Effect)
    (status : Nat) (headers : Headers) (data : Bytes) (responseData : Body)
    (hnet : net req.call = .response status headers data) (h500 : status < 500)
    (hparse : responseDataOf env headers data = some responseData)
    (hno : ¬ (status < 400 ∧ cacheControl ≠ some "no-store")) :
    forwardAndRespond env net nowSet req req.effectiveMethod req.target cacheKey cacheControl
        ttl sets store trace =
      { res := { status := status, sets := sets ++ headers, body := responseData }
        store := store
        trace := trace ++ [.upstream req.call] } := by
  have hax : axios net req.call = .resolved status headers data :=
    (axios_resolved_iff net req.call status headers data).2 ⟨hnet, h500⟩
  unfold Request.call at hax
  unfold forwardAndRespond
  simp only [hax, hparse, hno, if_false, Request.call]

/-- The forwarding block when `JSON.parse` throws on the upstream body. -/
theorem forward_parse_error (env : Env) (net : UpstreamCall → NetResult) (nowSet : Int)
    (req : Request) (cacheKey : String) (cacheControl : Option String) (ttl : Option Int)
    (sets : Headers) (store : Store) (trace : List Effect)
    (status : Nat) (headers : Headers) (data : Bytes)
    (hnet : net req.call = .response status headers data) (h500 : status < 500)
    (hparse : responseDataOf env headers data = none) :
    forwardAndRespond env net nowSet req req.effectiveMethod req.target cacheKey cacheControl
        ttl sets store trace =
      { res := { status := 500, sets := sets, body := .error "Internal Server Error" }
        store := store
        trace := trace ++ [.upstream req.call] } := by
  have hax : axios net req.call = .resolved status headers data :=
    (axios_resolved_iff net req.call status headers data).2 ⟨hnet, h500⟩
  unfold Request.call at hax
  unfold forwardAndRespond
  simp [hax, hparse, catchError, Request.call]

/-- The forwarding block when the promise of `axios` is rejected. -/
theorem forward_rejected (env : Env) (net : UpstreamCall → NetResult) (nowSet : Int)
    (req : Request) (cacheKey : String) (cacheControl : Option String) (ttl : Option Int)
    (sets : Headers) (store : Store) (trace : List Effect)
    (status : Option Nat) (message : String)
    (hax : axios net req.call = .rejected status message) :
    forwardAndRespond env net nowSet req req.effectiveMethod req.target cacheKey cacheControl
        ttl sets store trace =
      { res := { status := (catchError status message).1, sets := sets
                 body := (catchError status message).2 }
        store := store
        trace := trace ++ [.upstream req.call] } := by
  unfold Request.call at hax
  unfold forwardAndRespond
  simp [hax, Request.call]

/-! ### The header table -/

theorem headerTable_snoc (sets : Headers) (name value : String) :
    headerTable (sets ++ [(name, value)]) = setHeader (headerTable sets) name value := by
  unfold headerTable
  rw [List.foldl_append]
  rfl

/-- Looking a name up in the table finds the last `res.set` call with that name. -/
theorem find_headerTable (n : String) (sets : Headers) :
    (headerTable sets).find? (sameName n) = sets.reverse.find? (sameName n) := by
  induction sets using List.reverseRecOn with
  | nil => rfl
  | append_singleton l e ih =>
    obtain ⟨k, v⟩ := e
    rw [headerTable_snoc, List.reverse_append, List.reverse_singleton, List.singleton_append,
      List.find?_cons]
    unfold setHeader
    rw [List.find?_append]
    cases hk : sameName n (k, v)
    · have hfilter : ((headerTable l).filter (fun e => !sameName k e)).find? (sameName n)
          = (headerTable l).find? (sameName n) := by
        generalize headerTable l = t
        induction t with
        | nil => rfl
        | cons x xs ihx =>
          by_cases hx : sameName k x = true
          · have hnx : sameName n x = false := by
              cases hnx : sameName n x
              · rfl
              · exfalso
                unfold sameName at hk hx hnx
                simp only [beq_iff_eq, beq_eq_false_iff_ne, ne_eq] at hk hx hnx
                exact hk (by rw [← hx, hnx])
            simp [List.filter_cons, hx, List.find?_cons, hnx, ihx]
          · simp only [Bool.not_eq_true] at hx
            cases hnx : sameName n x <;> simp [List.filter_cons, hx, List.find?_cons, hnx, ihx]
      rw [hfilter, ih]
      simp [List.find?_cons, hk]
    · have hnone : ((headerTable l).filter (fun e => !sameName k e)).find? (sameName n) = none := by
        rw [List.find?_eq_none]
        intro x hx
        rw [List.mem_filter] at hx
        intro hnx
        have hkx : sameName k x = true := by
          unfold sameName at hk hnx ⊢
          simp only [beq_iff_eq] at hk hnx ⊢
          rw [hnx, hk]
        simp [hkx] at hx
      rw [hnone]
      simp [List.find?_cons, hk]

/-- The table holds one entry for a name that was set and none otherwise. -/
theorem count_headerTable (n : String) (sets : Headers) :
    (headerTable sets).countP (sameName n) = if sets.any (sameName n) then 1 else 0 := by
  induction sets using List.reverseRecOn with
  | nil => rfl
  | append_singleton l e ih =>
    obtain ⟨k, v⟩ := e
    rw [headerTable_snoc]
    unfold setHeader
    rw [List.countP_append, List.any_append]
    cases hk : sameName n (k, v)
    · have hfilter : ((headerTable l).filter (fun e => !sameName k e)).countP (sameName n)
          = (headerTable l).countP (sameName n) := by
        rw [List.countP_filter]
        apply List.countP_congr
        intro x _
        cases hnx : sameName n x
        · simp
        · have hkx : sameName k x = false := by
            cases hkx : sameName k x
            · rfl
            · exfalso
              unfold sameName at hk hkx hnx
              simp only [beq_iff_eq, beq_eq_false_iff_ne, ne_eq] at hk hkx hnx
              exact hk (by rw [← hkx, hnx])
          simp [hkx]
      rw [hfilter, ih, List.countP_singleton, List.any_cons, hk]
      simp only [Bool.or_false, Bool.false_eq_true, if_false, Nat.add_zero, List.any_nil]
    · have hzero : ((headerTable l).filter (fun e => !sameName k e)).countP (sameName n) = 0 := by
        rw [List.countP_eq_zero]
        intro x hx
        rw [List.mem_filter] at hx
        intro hnx
        have hkx : sameName k x = true := by
          unfold sameName at hk hnx ⊢
          simp only [beq_iff_eq] at hk hnx ⊢
          rw [hnx, hk]
        simp [hkx] at hx
      rw [hzero, List.countP_singleton, List.any_cons, hk]
      simp

/-! ### Case analysis of the forwarding block and of the handler -/

/-- The four ways the forwarding block can end. -/
theorem forward_cases (env : Env) (net : UpstreamCall → NetResult) (nowSet : Int)
    (req : Request) (cacheKey : String) (cacheControl : Option String) (ttl : Option Int)
    (sets : Headers) (store : Store) (trace : List Effect) :
    (∃ status headers data responseData,
        net req.call = .response status headers data ∧ status < 400 ∧
        cacheControl ≠ some "no-store" ∧ responseDataOf env headers data = some responseData ∧
        forwardAndRespond env net nowSet req req.effectiveMethod req.target cacheKey
            cacheControl ttl sets store trace =
          { res := { status := status, sets := sets ++ headers, body := responseData }
            store := cacheSet env nowSet store cacheKey
              { status := status, headers := headers, data := responseData } ttl
            trace := trace ++ [.upstream req.call,
              .cacheSet cacheKey { status := status, headers := headers, data := responseData }
                ttl] }) ∨
    (∃ status headers data responseData,
        net req.call = .response status headers data ∧ status < 500 ∧
        ¬ (status < 400 ∧ cacheControl ≠ some "no-store") ∧
        responseDataOf env headers data = some responseData ∧
        forwardAndRespond env net nowSet req req.effectiveMethod req.target cacheKey
            cacheControl ttl sets store trace =
          { res := { status := status, sets := sets ++ headers, body := responseData }
            store := store, trace := trace ++ [.upstream req.call] }) ∨
    (∃ status headers data,
        net req.call = .response status headers data ∧ status < 500 ∧
        responseDataOf env headers data = none ∧
        forwardAndRespond env net nowSet req req.effectiveMethod req.target cacheKey
            cacheControl ttl sets store trace =
          { res := { status := 500, sets := sets, body := .error "Internal Server Error" }
            store := store, trace := trace ++ [.upstream req.call] }) ∨
    (∃ status message,
        axios net req.call = .rejected status message ∧
        forwardAndRespond env net nowSet req req.effectiveMethod req.target cacheKey
            cacheControl ttl sets store trace =
          { res := { status := (catchError status message).1, sets := sets
                     body := (catchError status message).2 }
            store := store, trace := trace ++ [.upstream req.call] }) := by
  cases hax : axios net req.call with
  | resolved status headers data =>
    obtain ⟨hnet, h500⟩ := (axios_resolved_iff net req.call status headers data).1 hax
    cases hparse : responseDataOf env headers data with
    | none =>
      exact Or.inr (Or.inr (Or.inl ⟨status, headers, data, hnet, h500, hparse,
        forward_parse_error env net nowSet req cacheKey cacheControl ttl sets store trace
          status headers data hnet h500 hparse⟩))
    | some responseData =>
      by_cases hst : status < 400 ∧ cacheControl ≠ some "no-store"
      · exact Or.inl ⟨status, headers, data, responseData, hnet, hst.1, hst.2, hparse,
          forward_stored env net nowSet req cacheKey cacheControl ttl sets store trace
            status headers data responseData hnet hparse hst.1 hst.2⟩
      · exact Or.inr (Or.inl ⟨status, headers, data, responseData, hnet, h500, hst, hparse,
          forward_not_stored env net nowSet req cacheKey cacheControl ttl sets store trace
            status headers data responseData hnet h500 hparse hst⟩)
  | rejected status message =>
    exact Or.inr (Or.inr (Or.inr ⟨status, message, rfl,
      forward_rejected env net nowSet req cacheKey cacheControl ttl sets store trace
        status message hax⟩))

/-- Every cache call of the forwarding block is a write on the key it was given,
after the calls made before it. -/
theorem forward_trace (env : Env) (net : UpstreamCall → NetResult) (nowSet : Int)
    (req : Request) (cacheKey : String) (cacheControl : Option String) (ttl : Option Int)
    (sets : Headers) (store : Store) (trace : List Effect) :
    (forwardAndRespond env net nowSet req req.effectiveMethod req.target cacheKey
        cacheControl ttl sets store trace).trace = trace ++ [.upstream req.call] ∨
    ∃ v, (forwardAndRespond env net nowSet req req.effectiveMethod req.target cacheKey
        cacheControl ttl sets store trace).trace
          = trace ++ [.upstream req.call, .cacheSet cacheKey v ttl] := by
  rcases forward_cases env net nowSet req cacheKey cacheControl ttl sets store trace with
    ⟨s, h, d, b, _, _, _, _, heq⟩ | ⟨s, h, d, b, _, _, _, _, heq⟩ | ⟨s, h, d, _, _, _, heq⟩ |
    ⟨s, m, _, heq⟩
  · exact Or.inr ⟨_, by rw [heq]⟩
  · exact Or.inl (by rw [heq])
  · exact Or.inl (by rw [heq])
  · exact Or.inl (by rw [heq])

/-- The trace of the handler on an accepted request: the lookup, the deletion
when the request invalidates, and then either nothing more (a hit), or the
upstream call followed at most by one write on the key. -/
theorem handle_trace (env : Env) (net : UpstreamCall → NetResult) (now : Int)
    (latency : Nat) (store : Store) (req : Request) (h : accepted env req = true) :
    ∃ pre post,
      (handle env net now latency store req).trace = pre ++ post ∧
      (pre = [.cacheGet req.key] ∨ pre = [.cacheGet req.key, .cacheDel req.key]) ∧
      (post = [] ∨ post = [.upstream req.call] ∨
        ∃ v, post = [.upstream req.call, .cacheSet req.key v (ttlOf req.queryTtl)]) := by
  have key : ∀ (cc : Option String) (sets : Headers) (st : Store) (pre : List Effect),
      (pre = [.cacheGet req.key] ∨ pre = [.cacheGet req.key, .cacheDel req.key]) →
      ∃ pre1 post,
        (forwardAndRespond env net (now + latency) req req.effectiveMethod req.target req.key
          cc (ttlOf req.queryTtl) sets st pre).trace = pre1 ++ post ∧
        (pre1 = [.cacheGet req.key] ∨ pre1 = [.cacheGet req.key, .cacheDel req.key]) ∧
        (post = [] ∨ post = [.upstream req.call] ∨
          ∃ v, post = [.upstream req.call, .cacheSet req.key v (ttlOf req.queryTtl)]) := by
    intro cc sets st pre hpre
    rcases forward_trace env net (now + latency) req req.key cc (ttlOf req.queryTtl) sets st pre
      with ht | ⟨v, ht⟩
    · exact ⟨pre, _, ht, hpre, Or.inr (Or.inl rfl)⟩
    · exact ⟨pre, _, ht, hpre, Or.inr (Or.inr ⟨v, rfl⟩)⟩
  by_cases h1 : req.headers.lookup "cache-control" = some "no-cache"
  · rw [handle_bypass env net now latency store req h h1]
    exact key _ _ _ _ (Or.inl rfl)
  by_cases h2 : req.headers.lookup "cache-control" = some "no-store"
  · rw [handle_nostore env net now latency store req h h2]
    exact key _ _ _ _ (Or.inl rfl)
  by_cases h3 : req.headers.lookup "x-cache-invalidate" = some "true"
  · rw [handle_invalidate env net now latency store req h h1 h2 h3]
    exact key _ _ _ _ (Or.inr rfl)
  cases hc : (cacheGet now store req.key).1 with
  | some cached =>
    rw [handle_hit env net now latency store req cached h h1 h2 h3 hc]
    exact ⟨[.cacheGet req.key], [], rfl, Or.inl rfl, Or.inl rfl⟩
  | none =>
    rw [handle_miss env net now latency store req h h1 h2 h3 hc]
    exact key _ _ _ _ (Or.inl rfl)

/-! ### The store -/

theorem truthy_eq_false_iff (q : Option String) :
    truthy q = false ↔ q = none ∨ q = some "" := by
  cases q with
  | none => simp [truthy]
  | some s => simp [truthy]

theorem cacheGet_frame (now : Int) (s : Store) (key k : String) (hk : k ≠ key) :
    (cacheGet now s key).2 k = s k := by
  unfold cacheGet
  cases hs : s key with
  | none => rfl
  | some e =>
    by_cases he : expired now e = true
    · simp [he, Store.update, hk]
    · simp [he]

theorem cacheGet_sub (now : Int) (s : Store) (key k : String) (e : CacheEntry)
    (h : (cacheGet now s key).2 k = some e) : s k = some e := by
  unfold cacheGet at h
  cases hs : s key with
  | none => simpa [hs] using h
  | some e1 =>
    by_cases he : expired now e1 = true
    · simp only [hs, he, if_true, Store.update] at h
      by_cases hk : k = key
      · simp [hk] at h
      · simpa [hk] using h
    · simpa [hs, he] using h

theorem cacheDel_sub (s : Store) (key k : String) (e : CacheEntry)
    (h : (cacheDel s key) k = some e) : s k = some e := by
  unfold cacheDel Store.update at h
  by_cases hk : k = key
  · simp [hk] at h
  · simpa [hk] using h

theorem cacheSet_entry (env : Env) (t : Int) (s : Store) (key k : String) (v : CachedResponse)
    (ttl : Option Int) (e : CacheEntry) (h : (cacheSet env t s key v ttl) k = some e) :
    (k = key ∧ e.value = v ∧ e.insertedAt = t) ∨ s k = some e := by
  unfold cacheSet Store.update at h
  by_cases hk : k = key
  · simp only [hk, if_true, Option.some.injEq] at h
    subst h
    exact Or.inl ⟨hk, rfl, rfl⟩
  · simp only [hk, if_false] at h
    exact Or.inr h

/-- An entry in the store left by the forwarding block was there before, or is
the one response the upstream gave with a status below 400 to a request that did
not say `no-store`. -/
theorem forward_store_entries (env : Env) (net : UpstreamCall → NetResult) (nowSet : Int)
    (req : Request) (cacheKey : String) (cacheControl : Option String) (ttl : Option Int)
    (sets : Headers) (store : Store) (trace : List Effect) (k : String) (e : CacheEntry)
    (h : (forwardAndRespond env net nowSet req req.effectiveMethod req.target cacheKey
        cacheControl ttl sets store trace).store k = some e) :
    store k = some e ∨
      (k = cacheKey ∧ cacheControl ≠ some "no-store" ∧ e.value.status < 400 ∧
        e.insertedAt = nowSet ∧
        ∃ data, net req.call = .response e.value.status e.value.headers data) := by
  rcases forward_cases env net nowSet req cacheKey cacheControl ttl sets store trace with
    ⟨s, hd, d, b, hnet, hs, hcc, _, heq⟩ | ⟨s, hd, d, b, _, _, _, _, heq⟩ |
    ⟨s, hd, d, _, _, _, heq⟩ | ⟨s, m, _, heq⟩
  · rw [heq] at h
    rcases cacheSet_entry env nowSet store cacheKey k _ ttl e h with ⟨hk, hv, ht⟩ | hold
    · refine Or.inr ⟨hk, hcc, ?_, ht, d, ?_⟩
      · rw [hv]; exact hs
      · rw [hv]; exact hnet
    · exact Or.inl hold
  · rw [heq] at h; exact Or.inl h
  · rw [heq] at h; exact Or.inl h
  · rw [heq] at h; exact Or.inl h

/-- The same for the whole handler. -/
theorem handle_store_entries (env : Env) (net : UpstreamCall → NetResult) (now : Int)
    (latency : Nat) (store : Store) (req : Request) (k : String) (e : CacheEntry)
    (h : (handle env net now latency store req).store k = some e) :
    store k = some e ∨
      (k = req.key ∧ req.headers.lookup "cache-control" ≠ some "no-store" ∧
        e.value.status < 400 ∧ e.insertedAt = now + latency ∧
        ∃ data, net req.call = .response e.value.status e.value.headers data) := by
  cases hacc : accepted env req with
  | false =>
    rw [handle_not_accepted env net now latency store req hacc] at h
    exact Or.inl h
  | true =>
    have fwd : ∀ (cc : Option String) (sets : Headers) (st : Store) (pre : List Effect),
        cc = req.headers.lookup "cache-control" →
        (∀ e1, st k = some e1 → store k = some e1) →
        (forwardAndRespond env net (now + latency) req req.effectiveMethod req.target req.key
          cc (ttlOf req.queryTtl) sets st pre).store k = some e →
        store k = some e ∨
          (k = req.key ∧ req.headers.lookup "cache-control" ≠ some "no-store" ∧
            e.value.status < 400 ∧ e.insertedAt = now + latency ∧
            ∃ data, net req.call = .response e.value.status e.value.headers data) := by
      intro cc sets st pre hcc hst hf
      rcases forward_store_entries env net (now + latency) req req.key cc (ttlOf req.queryTtl)
        sets st pre k e hf with hold | ⟨h1, h2, h3, h4, h5⟩
      · exact Or.inl (hst e hold)
      · exact Or.inr ⟨h1, hcc ▸ h2, h3, h4, h5⟩
    by_cases h1 : req.headers.lookup "cache-control" = some "no-cache"
    · rw [handle_bypass env net now latency store req hacc h1] at h
      exact fwd _ _ _ _ h1.symm (fun e1 he1 => cacheGet_sub now store req.key k e1 he1) h
    by_cases h2 : req.headers.lookup "cache-control" = some "no-store"
    · rw [handle_nostore env net now latency store req hacc h2] at h
      exact fwd _ _ _ _ h2.symm (fun e1 he1 => cacheGet_sub now store req.key k e1 he1) h
    by_cases h3 : req.headers.lookup "x-cache-invalidate" = some "true"
    · rw [handle_invalidate env net now latency store req hacc h1 h2 h3] at h
      exact fwd _ _ _ _ rfl
        (fun e1 he1 => cacheGet_sub now store req.key k e1 (cacheDel_sub _ req.key k e1 he1)) h
    cases hc : (cacheGet now store req.key).1 with
    | some cached =>
      rw [handle_hit env net now latency store req cached hacc h1 h2 h3 hc] at h
      exact Or.inl (cacheGet_sub now store req.key k e h)
    | none =>
      rw [handle_miss env net now latency store req hacc h1 h2 h3 hc] at h
      exact fwd _ _ _ _ rfl (fun e1 he1 => cacheGet_sub now store req.key k e1 he1) h

theorem cacheGet_absent (now : Int) (s : Store) (key : String) (h : s key = none) :
    cacheGet now s key = (none, s) := by
  unfold cacheGet
  rw [h]

theorem cacheKeyOf_separates (u1 m1 u2 m2 : String)
    (h : (u1 = u2 ∧ m1 ≠ m2) ∨ (u1 ≠ u2 ∧ m1 = m2)) :
    cacheKeyOf u1 m1 ≠ cacheKeyOf u2 m2 := by
  intro heq
  unfold cacheKeyOf at heq
  rcases h with ⟨hu, hm⟩ | ⟨hu, hm⟩
  · subst hu
    have hsuffix := append_left_cancel_string u1 _ _ heq
    by_cases h1 : m1 = "GET"
    · by_cases h2 : m2 = "GET"
      · exact hm (h1.trans h2.symm)
      · simp only [h1, h2, bne_self_eq_false, Bool.false_eq_true, if_false, bne_iff_ne, ne_eq,
          not_false_eq_true, if_true] at hsuffix
        exact dash_append_ne_empty m2 hsuffix.symm
    · by_cases h2 : m2 = "GET"
      · simp only [h1, h2, bne_self_eq_false, Bool.false_eq_true, if_false, bne_iff_ne, ne_eq,
          not_false_eq_true, if_true] at hsuffix
        exact dash_append_ne_empty m1 hsuffix
      · simp only [h1, h2, bne_iff_ne, ne_eq, not_false_eq_true, if_true] at hsuffix
        exact hm (append_left_cancel_string "-" m1 m2 hsuffix)
  · subst hm
    exact hu (append_right_cancel_string u1 u2 _ heq)

/-- The `res.set` calls and the trace of the forwarding block extend those it
was entered with: the calls by nothing or by the upstream headers, the trace by
the upstream call and at most one write. -/
theorem forward_summary (env : Env) (net : UpstreamCall → NetResult) (nowSet : Int)
    (req : Request) (cacheKey : String) (cacheControl : Option String) (ttl : Option Int)
    (sets : Headers) (store : Store) (trace : List Effect) :
    ∃ tail post,
      (forwardAndRespond env net nowSet req req.effectiveMethod req.target cacheKey
        cacheControl ttl sets store trace).res.sets = sets ++ tail ∧
      (forwardAndRespond env net nowSet req req.effectiveMethod req.target cacheKey
        cacheControl ttl sets store trace).trace = trace ++ .upstream req.call :: post ∧
      (post = [] ∨ ∃ v, post = [.cacheSet cacheKey v ttl]) := by
  rcases forward_cases env net nowSet req cacheKey cacheControl ttl sets store trace with
    ⟨s, h, d, b, _, _, _, _, heq⟩ | ⟨s, h, d, b, _, _, _, _, heq⟩ | ⟨s, h, d, _, _, _, heq⟩ |
    ⟨s, m, _, heq⟩
  · exact ⟨h, _, by rw [heq], by rw [heq], Or.inr ⟨_, rfl⟩⟩
  · exact ⟨h, [], by rw [heq], by rw [heq], Or.inl rfl⟩
  · exact ⟨[], [], by rw [heq, List.append_nil], by rw [heq], Or.inl rfl⟩
  · exact ⟨[], [], by rw [heq, List.append_nil], by rw [heq], Or.inl rfl⟩

/-- What the directive theorem needs from a forwarded request. -/
theorem forward_observed (env : Env) (net : UpstreamCall → NetResult) (nowSet : Int)
    (req : Request) (cacheKey : String) (cacheControl : Option String) (ttl : Option Int)
    (label : String) (store : Store) (trace : List Effect) :
    (forwardAndRespond env net nowSet req req.effectiveMethod req.target cacheKey
      cacheControl ttl [("X-Cache", label)] store trace).res.sets.head?
        = some ("X-Cache", label) ∧
    (forwardAndRespond env net nowSet req req.effectiveMethod req.target cacheKey
      cacheControl ttl [("X-Cache", label)] store trace).trace.any Effect.isDel
        = trace.any Effect.isDel ∧
    (forwardAndRespond env net nowSet req req.effectiveMethod req.target cacheKey
      cacheControl ttl [("X-Cache", label)] store trace).trace.any Effect.isUpstream = true := by
  obtain ⟨tail, post, hs, ht, hpost⟩ :=
    forward_summary env net nowSet req cacheKey cacheControl ttl [("X-Cache", label)] store trace
  rw [hs, ht]
  refine ⟨rfl, ?_, ?_⟩
  · rcases hpost with rfl | ⟨v, rfl⟩ <;> simp [Effect.isDel]
  · simp [Effect.isUpstream]

/-- A write in the trace of the handler is the write of an eligible response. -/
theorem handle_set_in_trace (env : Env) (net : UpstreamCall → NetResult) (now : Int)
    (latency : Nat) (store : Store) (req : Request) (key : String) (v : CachedResponse)
    (ttl : Option Int)
    (hmem : Effect.cacheSet key v ttl ∈ (handle env net now latency store req).trace) :
    req.headers.lookup "cache-control" ≠ some "no-store" ∧ v.status < 400 ∧
      ∃ data, net req.call = .response v.status v.headers data := by
  cases hacc : accepted env req with
  | false =>
    rw [handle_not_accepted env net now latency store req hacc] at hmem
    simp at hmem
  | true =>
    have fwd : ∀ (cc : Option String) (sets : Headers) (st : Store) (pre : List Effect),
        cc = req.headers.lookup "cache-control" →
        Effect.cacheSet key v ttl ∉ pre →
        Effect.cacheSet key v ttl ∈
          (forwardAndRespond env net (now + latency) req req.effectiveMethod req.target req.key
            cc (ttlOf req.queryTtl) sets st pre).trace →
        req.headers.lookup "cache-control" ≠ some "no-store" ∧ v.status < 400 ∧
          ∃ data, net req.call = .response v.status v.headers data := by
      intro cc sets st pre hcc hpre hin
      rcases forward_cases env net (now + latency) req req.key cc (ttlOf req.queryTtl) sets st pre
        with ⟨s, hd, d, b, hnet, hs, hns, _, heq⟩ | ⟨s, hd, d, b, _, _, _, _, heq⟩ |
          ⟨s, hd, d, _, _, _, heq⟩ | ⟨s, m, _, heq⟩
      · rw [heq] at hin
        simp only [List.mem_append, List.mem_cons, List.mem_singleton, List.not_mem_nil,
          or_false] at hin
        rcases hin with hin | hin | hin
        · exact absurd hin hpre
        · cases hin
        · injection hin with _ hv _
          subst hv
          exact ⟨hcc ▸ hns, hs, d, hnet⟩
      · rw [heq] at hin
        simp only [List.mem_append, List.mem_singleton] at hin
        rcases hin with hin | hin
        · exact absurd hin hpre
        · cases hin
      · rw [heq] at hin
        simp only [List.mem_append, List.mem_singleton] at hin
        rcases hin with hin | hin
        · exact absurd hin hpre
        · cases hin
      · rw [heq] at hin
        simp only [List.mem_append, List.mem_singleton] at hin
        rcases hin with hin | hin
        · exact absurd hin hpre
        · cases hin
    by_cases h1 : req.headers.lookup "cache-control" = some "no-cache"
    · rw [handle_bypass env net now latency store req hacc h1] at hmem
      exact fwd _ _ _ _ h1.symm (by simp) hmem
    by_cases h2 : req.headers.lookup "cache-control" = some "no-store"
    · rw [handle_nostore env net now latency store req hacc h2] at hmem
      exact fwd _ _ _ _ h2.symm (by simp) hmem
    by_cases h3 : req.headers.lookup "x-cache-invalidate" = some "true"
    · rw [handle_invalidate env net now latency store req hacc h1 h2 h3] at hmem
      exact fwd _ _ _ _ rfl (by simp) hmem
    cases hc : (cacheGet now store req.key).1 with
    | some cached =>
      rw [handle_hit env net now latency store req cached hacc h1 h2 h3 hc] at hmem
      simp at hmem
    | none =>
      rw [handle_miss env net now latency store req hacc h1 h2 h3 hc] at hmem
      exact fwd _ _ _ _ rfl (by simp) hmem

/-- The invariant "every stored entry has a status below 400" is kept by a
sequence of requests. -/
theorem run_invariant (env : Env) (steps : List Step) (store : Store)
    (hinv : ∀ k e, store k = some e → e.value.status < 400) :
    ∀ k e, run env store steps k = some e → e.value.status < 400 := by
  induction steps generalizing store with
  | nil => exact hinv
  | cons st rest ih =>
    unfold run
    rw [List.foldl_cons]
    apply ih
    intro k e hk
    rcases handle_store_entries env st.net st.now st.latency store st.req k e hk with
      hold | ⟨_, _, hs, _⟩
    · exact hinv k e hold
    · exact hs

/-! ### Header lookups on a response -/

theorem getHeader_eq (r : Response) (n : String) :
    r.getHeader n = (r.sets.reverse.find? (sameName n)).map Prod.snd := by
  unfold Response.getHeader Response.headers
  rw [find_headerTable]

/-- A header set first and never again keeps its value. -/
theorem getHeader_first (status : Nat) (body : Body) (name value n : String) (tail : Headers)
    (hn : sameName n (name, value) = true) (htail : ∀ e ∈ tail, sameName n e = false) :
    Response.getHeader { status := status, sets := (name, value) :: tail, body := body } n
      = some value := by
  rw [getHeader_eq]
  simp only [List.reverse_cons, List.find?_append]
  have hnone : tail.reverse.find? (sameName n) = none := by
    rw [List.find?_eq_none]
    intro x hx
    rw [htail x (List.mem_reverse.1 hx)]
    simp
  rw [hnone]
  simp [List.find?_cons, hn]

/-- A header other than the first one set is looked up in the later calls only. -/
theorem getHeader_rest (status : Nat) (body : Body) (name value n : String) (tail : Headers)
    (hn : sameName n (name, value) = false) :
    Response.getHeader { status := status, sets := (name, value) :: tail, body := body } n
      = (tail.reverse.find? (sameName n)).map Prod.snd := by
  rw [getHeader_eq]
  simp only [List.reverse_cons, List.find?_append]
  cases tail.reverse.find? (sameName n) with
  | some e => rfl
  | none => simp [List.find?_cons, hn]

/-- A response whose first `res.set` call names a header carries it exactly once. -/
theorem countHeader_first (status : Nat) (body : Body) (name value n : String) (tail : Headers)
    (hn : sameName n (name, value) = true) :
    Response.countHeader { status := status, sets := (name, value) :: tail, body := body } n
      = 1 := by
  unfold Response.countHeader Response.headers
  rw [count_headerTable]
  simp [List.any_cons, hn]

/-- In a list with a single element satisfying `p`, `find?` returns it. -/
theorem find_unique {α : Type} (p : α → Bool) (l : List α) (e : α) (hmem : e ∈ l)
    (hp : p e = true) (huniq : ∀ x ∈ l, p x = true → x = e) : l.find? p = some e := by
  induction l with
  | nil => cases hmem
  | cons x xs ih =>
    by_cases hx : p x = true
    · have := huniq x (List.mem_cons_self x xs) hx
      subst this
      simp [List.find?_cons, hx]
    · have hne : e ≠ x := fun he => hx (he ▸ hp)
      have hmem2 : e ∈ xs := by
        rcases List.mem_cons.1 hmem with h | h
        · exact absurd h hne
        · exact h
      simp only [Bool.not_eq_true] at hx
      rw [List.find?_cons, hx]
      exact ih hmem2 (fun y hy => huniq y (List.mem_cons_of_mem x hy))

/-- With header names that are pairwise distinct, every entry is the one found
under its name. -/
theorem find_of_nodup (headers : Headers) (e : String × String) (hmem : e ∈ headers)
    (hnodup : (headers.map (fun x => lower x.1)).Nodup) :
    headers.reverse.find? (sameName e.1) = some e := by
  apply find_unique (sameName e.1) headers.reverse e (List.mem_reverse.2 hmem)
  · simp [sameName]
  · intro x hx hpx
    have hx2 : x ∈ headers := List.mem_reverse.1 hx
    have hinj := List.inj_on_of_nodup_map hnodup
    apply hinj hx2 hmem
    unfold sameName at hpx
    simpa using hpx

/-- The `res.set` calls of the handler on an accepted request: the label first,
then nothing, or the headers of the upstream response, or the cached headers. -/
theorem handle_sets (env : Env) (net : UpstreamCall → NetResult) (now : Int)
    (latency : Nat) (store : Store) (req : Request) (h : accepted env req = true) :
    ∃ tail,
      (handle env net now latency store req).res.sets =
        ("X-Cache", (interpret req.headers).label (cacheGet now store req.key).1.isSome)
          :: tail ∧
      ((tail = [] ∧ (handle env net now latency store req).trace.any Effect.isUpstream = true) ∨
        ((∃ status data, net req.call = .response status tail data) ∧
          (handle env net now latency store req).trace.any Effect.isUpstream = true) ∨
        (∃ cached, (cacheGet now store req.key).1 = some cached ∧ tail = cached.headers ∧
          interpret req.headers = .USE_CACHE ∧
          (handle env net now latency store req).trace.any Effect.isUpstream = false)) := by
  have fwd : ∀ (cc : Option String) (label : String) (st : Store) (pre : List Effect),
      ∃ tail,
        (forwardAndRespond env net (now + latency) req req.effectiveMethod req.target req.key
          cc (ttlOf req.queryTtl) [("X-Cache", label)] st pre).res.sets
            = ("X-Cache", label) :: tail ∧
        (forwardAndRespond env net (now + latency) req req.effectiveMethod
            req.target req.key cc (ttlOf req.queryTtl) [("X-Cache", label)] st pre).trace.any
              Effect.isUpstream = true ∧
        (tail = [] ∨ ∃ status data, net req.call = .response status tail data) := by
    intro cc label st pre
    have hup := (forward_observed env net (now + latency) req req.key cc (ttlOf req.queryTtl)
      label st pre).2.2
    rcases forward_cases env net (now + latency) req req.key cc (ttlOf req.queryTtl)
        [("X-Cache", label)] st pre with
      ⟨s, hd, d, b, hnet, _, _, _, heq⟩ | ⟨s, hd, d, b, hnet, _, _, _, heq⟩ |
      ⟨s, hd, d, _, _, _, heq⟩ | ⟨s, m, _, heq⟩
    · exact ⟨hd, by rw [heq]; rfl, hup, Or.inr ⟨s, d, hnet⟩⟩
    · exact ⟨hd, by rw [heq]; rfl, hup, Or.inr ⟨s, d, hnet⟩⟩
    · exact ⟨[], by rw [heq], hup, Or.inl rfl⟩
    · exact ⟨[], by rw [heq], hup, Or.inl rfl⟩
  have pack : ∀ (R : Result) (label : String),
      (∃ tail, R.res.sets = ("X-Cache", label) :: tail ∧
        R.trace.any Effect.isUpstream = true ∧
        (tail = [] ∨ ∃ status data, net req.call = .response status tail data)) →
      ∃ tail, R.res.sets = ("X-Cache", label) :: tail ∧
        ((tail = [] ∧ R.trace.any Effect.isUpstream = true) ∨
          ((∃ status data, net req.call = .response status tail data) ∧
            R.trace.any Effect.isUpstream = true) ∨
          (∃ cached, (cacheGet now store req.key).1 = some cached ∧ tail = cached.headers ∧
            interpret req.headers = .USE_CACHE ∧
            R.trace.any Effect.isUpstream = false)) := by
    rintro R label ⟨tail, hs, hup, ht⟩
    rcases ht with ht | ht
    · exact ⟨tail, hs, Or.inl ⟨ht, hup⟩⟩
    · exact ⟨tail, hs, Or.inr (Or.inl ⟨ht, hup⟩)⟩
  by_cases h1 : req.headers.lookup "cache-control" = some "no-cache"
  · have hd : interpret req.headers = .BYPASS := by simp [interpret, h1]
    rw [handle_bypass env net now latency store req h h1]
    have hl : (interpret req.headers).label (cacheGet now store req.key).1.isSome = "BYPASS" := by
      rw [hd]; rfl
    rw [hl]
    exact pack _ _ (fwd _ _ _ _)
  by_cases h2 : req.headers.lookup "cache-control" = some "no-store"
  · have hd : interpret req.headers = .NO_STORE := by simp [interpret, h2]
    rw [handle_nostore env net now latency store req h h2]
    have hl : (interpret req.headers).label (cacheGet now store req.key).1.isSome = "NOCACHE" := by
      rw [hd]; rfl
    rw [hl]
    exact pack _ _ (fwd _ _ _ _)
  by_cases h3 : req.headers.lookup "x-cache-invalidate" = some "true"
  · have hd : interpret req.headers = .INVALIDATE := by simp [interpret, h1, h2, h3]
    rw [handle_invalidate env net now latency store req h h1 h2 h3]
    have hl : (interpret req.headers).label (cacheGet now store req.key).1.isSome
        = "INVALIDATED" := by
      rw [hd]; rfl
    rw [hl]
    exact pack _ _ (fwd _ _ _ _)
  have hd : interpret req.headers = .USE_CACHE := by simp [interpret, h1, h2, h3]
  cases hc : (cacheGet now store req.key).1 with
  | some cached =>
    rw [handle_hit env net now latency store req cached h h1 h2 h3 hc, hd]
    exact ⟨cached.headers, rfl,
      Or.inr (Or.inr ⟨cached, rfl, rfl, rfl, by simp [Effect.isUpstream]⟩)⟩
  | none =>
    rw [handle_miss env net now latency store req h h1 h2 h3 hc]
    have hl : (interpret req.headers).label (none : Option CachedResponse).isSome = "MISS" := by
      rw [hd]; rfl
    rw [hl]
    obtain ⟨tail, hs, hor⟩ := pack _ _ (fwd (req.headers.lookup "cache-control") "MISS"
      (cacheGet now store req.key).2 [.cacheGet req.key])
    refine ⟨tail, hs, ?_⟩
    rcases hor with ha | hb | ⟨c, hcc, _⟩
    · exact Or.inl ha
    · exact Or.inr (Or.inl hb)
    · rw [hc] at hcc; cases hcc

/-- The handler answers without an upstream call exactly under `USE_CACHE` with a
successful lookup. -/
theorem handle_upstream_iff (env : Env) (net : UpstreamCall → NetResult) (now : Int)
    (latency : Nat) (store : Store) (req : Request) (h : accepted env req = true) :
    (handle env net now latency store req).trace.any Effect.isUpstream = false ↔
      (interpret req.headers = .USE_CACHE ∧ (cacheGet now store req.key).1.isSome = true) := by
  obtain ⟨tail, _, hor⟩ := handle_sets env net now latency store req h
  rcases hor with ⟨_, hup⟩ | ⟨_, hup⟩ | ⟨c, hc, _, hd, hup⟩
  · rw [hup]
    simp only [Bool.true_eq_false, false_iff, not_and]
    intro hd
    by_cases h1 : req.headers.lookup "cache-control" = some "no-cache"
    · simp [interpret, h1] at hd
    by_cases h2 : req.headers.lookup "cache-control" = some "no-store"
    · simp [interpret, h1, h2] at hd
    by_cases h3 : req.headers.lookup "x-cache-invalidate" = some "true"
    · simp [interpret, h1, h2, h3] at hd
    cases hc : (cacheGet now store req.key).1 with
    | none => simp
    | some cached =>
      rw [handle_hit env net now latency store req cached h h1 h2 h3 hc] at hup
      simp [Effect.isUpstream] at hup
  · rw [hup]
    simp only [Bool.true_eq_false, false_iff, not_and]
    intro hd
    by_cases h1 : req.headers.lookup "cache-control" = some "no-cache"
    · simp [interpret, h1] at hd
    by_cases h2 : req.headers.lookup "cache-control" = some "no-store"
    · simp [interpret, h1, h2] at hd
    by_cases h3 : req.headers.lookup "x-cache-invalidate" = some "true"
    · simp [interpret, h1, h2, h3] at hd
    cases hc : (cacheGet now store req.key).1 with
    | none => simp
    | some cached =>
      rw [handle_hit env net now latency store req cached h h1 h2 h3 hc] at hup
      simp [Effect.isUpstream] at hup
  · rw [hup, hc]
    simp [hd]

/-- The response of the forwarding block to an upstream response below 500 whose
body could be read. -/
theorem forward_response (env : Env) (net : UpstreamCall → NetResult) (nowSet : Int)
    (req : Request) (cacheKey : String) (cacheControl : Option String) (ttl : Option Int)
    (sets : Headers) (store : Store) (trace : List Effect)
    (status : Nat) (headers : Headers) (data : Bytes) (responseData : Body)
    (hnet : net req.call = .response status headers data) (h500 : status < 500)
    (hparse : responseDataOf env headers data = some responseData) :
    (forwardAndRespond env net nowSet req req.effectiveMethod req.target cacheKey cacheControl
        ttl sets store trace).res =
      { status := status, sets := sets ++ headers, body := responseData } := by
  by_cases hst : status < 400 ∧ cacheControl ≠ some "no-store"
  · rw [forward_stored env net nowSet req cacheKey cacheControl ttl sets store trace
      status headers data responseData hnet hparse hst.1 hst.2]
  · rw [forward_not_stored env net nowSet req cacheKey cacheControl ttl sets store trace
      status headers data responseData hnet h500 hparse hst]

/-- The response of the handler when it forwarded the request and the upstream
answered below 500 with a body that could be read. -/
theorem handle_forwarded_response (env : Env) (net : UpstreamCall → NetResult) (now : Int)
    (latency : Nat) (store : Store) (req : Request)
    (status : Nat) (headers : Headers) (data : Bytes) (responseData : Body)
    (h : accepted env req = true)
    (hfwd : (handle env net now latency store req).trace.any Effect.isUpstream = true)
    (hnet : net req.call = .response status headers data) (h500 : status < 500)
    (hparse : responseDataOf env headers data = some responseData) :
    (handle env net now latency store req).res =
      { status := status
        sets := ("X-Cache", (interpret req.headers).label (cacheGet now store req.key).1.isSome)
          :: headers
        body := responseData } := by
  by_cases h1 : req.headers.lookup "cache-control" = some "no-cache"
  · have hd : interpret req.headers = .BYPASS := by simp [interpret, h1]
    rw [handle_bypass env net now latency store req h h1, hd,
      forward_response env net _ req _ _ _ _ _ _ status headers data responseData hnet h500 hparse]
    rfl
  by_cases h2 : req.headers.lookup "cache-control" = some "no-store"
  · have hd : interpret req.headers = .NO_STORE := by simp [interpret, h2]
    rw [handle_nostore env net now latency store req h h2, hd,
      forward_response env net _ req _ _ _ _ _ _ status headers data responseData hnet h500 hparse]
    rfl
  by_cases h3 : req.headers.lookup "x-cache-invalidate" = some "true"
  · have hd : interpret req.headers = .INVALIDATE := by simp [interpret, h1, h2, h3]
    rw [handle_invalidate env net now latency store req h h1 h2 h3, hd,
      forward_response env net _ req _ _ _ _ _ _ status headers data responseData hnet h500 hparse]
    rfl
  have hd : interpret req.headers = .USE_CACHE := by simp [interpret, h1, h2, h3]
  cases hc : (cacheGet now store req.key).1 with
  | some cached =>
    rw [handle_hit env net now latency store req cached h h1 h2 h3 hc] at hfwd
    simp [Effect.isUpstream] at hfwd
  | none =>
    rw [handle_miss env net now latency store req h h1 h2 h3 hc, hd,
      forward_response env net _ req _ _ _ _ _ _ status headers data responseData hnet h500 hparse]
    rfl

theorem responseDataOf_not_error (env : Env) (headers : Headers) (data : Bytes)
    (responseData : Body) (h : responseDataOf env headers data = some responseData)
    (message : String) : responseData ≠ .error message := by
  unfold responseDataOf at h
  by_cases hj : includes ((headers.lookup "content-type").getD "") "application/json" = true
  · simp only [hj, if_true] at h
    cases hp : env.jsonParse data with
    | none => simp [hp] at h
    | some v =>
      simp only [hp, Option.map_some', Option.some.injEq] at h
      subst h
      intro hc
      cases hc
  · simp only [hj] at h
    simp only [Bool.false_eq_true, if_false, Option.some.injEq] at h
    subst h
    intro hc
    cases hc

/-! ### Storing and finding again -/

theorem cacheSet_lookup (env : Env) (t : Int) (s : Store) (key : String) (v : CachedResponse)
    (ttl : Option Int) :
    cacheSet env t s key v ttl key
      = some { value := v, insertedAt := t, ttlSeconds := retentionOf env ttl } := by
  simp [cacheSet, Store.update]

theorem cacheGet_live (now : Int) (s : Store) (key : String) (e : CacheEntry)
    (h : s key = some e) (hlive : expired now e = false) :
    cacheGet now s key = (some e.value, s) := by
  unfold cacheGet
  rw [h]
  simp [hlive]

theorem cacheGet_expired (now : Int) (s : Store) (key : String)
    (h : ∀ e, s key = some e → expired now e = true) :
    (cacheGet now s key).1 = none := by
  unfold cacheGet
  cases hs : s key with
  | none => rfl
  | some e => simp [h e hs]

theorem reap_sub (t : Int) (s : Store) (k : String) (e : CacheEntry)
    (h : reap t s k = some e) : s k = some e := by
  unfold reap at h
  cases hs : s k with
  | none => simp [hs] at h
  | some e1 =>
    by_cases he : expired t e1 = true
    · simp [hs, he] at h
    · simpa [hs, he] using h

theorem sweep_sub (times : List Int) (s : Store) (k : String) (e : CacheEntry)
    (h : sweep s times k = some e) : s k = some e := by
  induction times generalizing s with
  | nil => exact h
  | cons t ts ih =>
    unfold sweep at h
    rw [List.foldl_cons] at h
    exact reap_sub t s k e (ih (reap t s) h)

/-- The whole outcome of a request without directive that finds nothing in the
cache and receives an eligible upstream response. -/
theorem handle_miss_stored (env : Env) (net : UpstreamCall → NetResult) (now : Int)
    (latency : Nat) (store : Store) (req : Request)
    (status : Nat) (headers : Headers) (data : Bytes) (responseData : Body)
    (h : accepted env req = true) (hd : interpret req.headers = .USE_CACHE)
    (hc : (cacheGet now store req.key).1 = none)
    (hnet : net req.call = .response status headers data) (hs : status < 400)
    (hparse : responseDataOf env headers data = some responseData) :
    handle env net now latency store req =
      { res := { status := status, sets := ("X-Cache", "MISS") :: headers, body := responseData }
        store := cacheSet env (now + latency) (cacheGet now store req.key).2 req.key
          { status := status, headers := headers, data := responseData } (ttlOf req.queryTtl)
        trace := [.cacheGet req.key, .upstream req.call,
          .cacheSet req.key { status := status, headers := headers, data := responseData }
            (ttlOf req.queryTtl)] } := by
  have h1 : req.headers.lookup "cache-control" ≠ some "no-cache" := by
    intro hx; simp [interpret, hx] at hd
  have h2 : req.headers.lookup "cache-control" ≠ some "no-store" := by
    intro hx; simp [interpret, h1, hx] at hd
  have h3 : req.headers.lookup "x-cache-invalidate" ≠ some "true" := by
    intro hx; simp [interpret, h1, h2, hx] at hd
  rw [handle_miss env net now latency store req h h1 h2 h3 hc,
    forward_stored env net _ req _ _ _ _ _ _ status headers data responseData hnet hparse hs h2]
  rfl

/-- The whole outcome of a request without directive that finds a live entry. -/
theorem handle_hit_live (env : Env) (net : UpstreamCall → NetResult) (now : Int)
    (latency : Nat) (store : Store) (req : Request) (e : CacheEntry)
    (h : accepted env req = true) (hd : interpret req.headers = .USE_CACHE)
    (he : store req.key = some e) (hlive : expired now e = false) :
    handle env net now latency store req =
      { res := { status := e.value.status, sets := ("X-Cache", "HIT") :: e.value.headers
                 body := e.value.data }
        store := store, trace := [.cacheGet req.key] } := by
  have h1 : req.headers.lookup "cache-control" ≠ some "no-cache" := by
    intro hx; simp [interpret, hx] at hd
  have h2 : req.headers.lookup "cache-control" ≠ some "no-store" := by
    intro hx; simp [interpret, h1, hx] at hd
  have h3 : req.headers.lookup "x-cache-invalidate" ≠ some "true" := by
    intro hx; simp [interpret, h1, h2, hx] at hd
  have hg := cacheGet_live now store req.key e he hlive
  rw [handle_hit env net now latency store req e.value h h1 h2 h3 (by rw [hg]), hg]

/-- A request that wrote the cache left its entry at its key, stamped with the
time of the write and the retention of its `ttl` parameter. -/
theorem handle_store_after_set (env : Env) (net : UpstreamCall → NetResult) (now : Int)
    (latency : Nat) (store : Store) (req : Request)
    (hset : (handle env net now latency store req).trace.any Effect.isSet = true) :
    ∃ v, (handle env net now latency store req).store req.key =
      some { value := v, insertedAt := now + latency
             ttlSeconds := retentionOf env (ttlOf req.queryTtl) } := by
  cases hacc : accepted env req with
  | false =>
    rw [handle_not_accepted env net now latency store req hacc] at hset
    simp at hset
  | true =>
    have fwd : ∀ (cc : Option String) (sets : Headers) (st : Store) (pre : List Effect),
        pre.any Effect.isSet = false →
        (forwardAndRespond env net (now + latency) req req.effectiveMethod req.target req.key
          cc (ttlOf req.queryTtl) sets st pre).trace.any Effect.isSet = true →
        ∃ v, (forwardAndRespond env net (now + latency) req req.effectiveMethod req.target
          req.key cc (ttlOf req.queryTtl) sets st pre).store req.key =
            some { value := v, insertedAt := now + latency
                   ttlSeconds := retentionOf env (ttlOf req.queryTtl) } := by
      intro cc sets st pre hpre hin
      rcases forward_cases env net (now + latency) req req.key cc (ttlOf req.queryTtl) sets st pre
        with ⟨s, hd, d, b, _, _, _, _, heq⟩ | ⟨s, hd, d, b, _, _, _, _, heq⟩ |
          ⟨s, hd, d, _, _, _, heq⟩ | ⟨s, m, _, heq⟩
      · rw [heq]
        exact ⟨_, cacheSet_lookup env _ _ _ _ _⟩
      · rw [heq] at hin
        simp [hpre, Effect.isSet] at hin
      · rw [heq] at hin
        simp [hpre, Effect.isSet] at hin
      · rw [heq] at hin
        simp [hpre, Effect.isSet] at hin
    by_cases h1 : req.headers.lookup "cache-control" = some "no-cache"
    · rw [handle_bypass env net now latency store req hacc h1] at hset ⊢
      exact fwd _ _ _ _ (by simp [Effect.isSet]) hset
    by_cases h2 : req.headers.lookup "cache-control" = some "no-store"
    · rw [handle_nostore env net now latency store req hacc h2] at hset ⊢
      exact fwd _ _ _ _ (by simp [Effect.isSet]) hset
    by_cases h3 : req.headers.lookup "x-cache-invalidate" = some "true"
    · rw [handle_invalidate env net now latency store req hacc h1 h2 h3] at hset ⊢
      exact fwd _ _ _ _ (by simp [Effect.isSet]) hset
    cases hc : (cacheGet now store req.key).1 with
    | some cached =>
      rw [handle_hit env net now latency store req cached hacc h1 h2 h3 hc] at hset
      simp [Effect.isSet] at hset
    | none =>
      rw [handle_miss env net now latency store req hacc h1 h2 h3 hc] at hset ⊢
      exact fwd _ _ _ _ (by simp [Effect.isSet]) hset

theorem parseInt_empty : parseInt "" = none := by decide

/-- The `ttl` of a request whose parameter parses to a number. -/
theorem ttlOf_parsed (s : String) (t : Int) (h : parseInt s = some t) :
    ttlOf (some s) = some t := by
  unfold ttlOf
  by_cases hs : s = ""
  · subst hs
    rw [parseInt_empty] at h
    cases h
  · simp [hs, h]

/-- An entry with a retention of `t ≥ 1` seconds has expired at any time later
than `t` seconds after its insertion. -/
theorem expired_after (now2 T t : Int) (v : CachedResponse) (ht : 1 ≤ t)
    (hlater : T + t * 1000 < now2) :
    expired now2 { value := v, insertedAt := T, ttlSeconds := t } = true := by
  unfold expired
  have h0 : t ≠ 0 := by omega
  simp [h0, hlater]

/-! ### The store a request leaves behind -/

/-- The store left by the forwarding block: the one it was entered with when it
writes nothing, and that one with the written response at the key otherwise. -/
theorem forward_store_shape (env : Env) (net : UpstreamCall → NetResult) (nowSet : Int)
    (req : Request) (cacheKey : String) (cacheControl : Option String) (ttl : Option Int)
    (sets : Headers) (store : Store) (trace : List Effect)
    (hpre : trace.any Effect.isSet = false) :
    ((forwardAndRespond env net nowSet req req.effectiveMethod req.target cacheKey cacheControl
        ttl sets store trace).trace.any Effect.isSet = false →
      (forwardAndRespond env net nowSet req req.effectiveMethod req.target cacheKey cacheControl
        ttl sets store trace).store = store) ∧
    (∀ k v t, Effect.cacheSet k v t ∈
        (forwardAndRespond env net nowSet req req.effectiveMethod req.target cacheKey
          cacheControl ttl sets store trace).trace →
      (forwardAndRespond env net nowSet req req.effectiveMethod req.target cacheKey cacheControl
        ttl sets store trace).store = cacheSet env nowSet store cacheKey v ttl) := by
  have hnot : ∀ k v t, Effect.cacheSet k v t ∉ trace := by
    intro k v t hmem
    rw [List.any_eq_false] at hpre
    exact hpre _ hmem rfl
  rcases forward_cases env net nowSet req cacheKey cacheControl ttl sets store trace with
    ⟨s, hd, d, b, _, _, _, _, heq⟩ | ⟨s, hd, d, b, _, _, _, _, heq⟩ |
    ⟨s, hd, d, _, _, _, heq⟩ | ⟨s, m, _, heq⟩
  · rw [heq]
    constructor
    · intro hno
      simp [Effect.isSet] at hno
    · intro k v t hmem
      simp only [List.mem_append, List.mem_cons, List.mem_singleton, List.not_mem_nil,
        or_false] at hmem
      rcases hmem with hmem | hmem | hmem
      · exact absurd hmem (hnot k v t)
      · cases hmem
      · injection hmem with _ hv _
        rw [hv]
  · rw [heq]
    refine ⟨fun _ => rfl, ?_⟩
    intro k v t hmem
    simp only [List.mem_append, List.mem_singleton] at hmem
    rcases hmem with hmem | hmem
    · exact absurd hmem (hnot k v t)
    · cases hmem
  · rw [heq]
    refine ⟨fun _ => rfl, ?_⟩
    intro k v t hmem
    simp only [List.mem_append, List.mem_singleton] at hmem
    rcases hmem with hmem | hmem
    · exact absurd hmem (hnot k v t)
    · cases hmem
  · rw [heq]
    refine ⟨fun _ => rfl, ?_⟩
    intro k v t hmem
    simp only [List.mem_append, List.mem_singleton] at hmem
    rcases hmem with hmem | hmem
    · exact absurd hmem (hnot k v t)
    · cases hmem

/-- The store left by the handler on an accepted request.  Its base is the store
after the lookup, with the entry at the key removed exactly when the directive is
`INVALIDATE`; the handler leaves the base when it writes nothing, and the base
with the written response at the key otherwise. -/
theorem handle_store_shape (env : Env) (net : UpstreamCall → NetResult) (now : Int)
    (latency : Nat) (store : Store) (req : Request) (h : accepted env req = true) :
    ((handle env net now latency store req).trace.any Effect.isSet = false →
      (handle env net now latency store req).store =
        (if interpret req.headers = .INVALIDATE
          then cacheDel (cacheGet now store req.key).2 req.key
          else (cacheGet now store req.key).2)) ∧
    (∀ k v t, Effect.cacheSet k v t ∈ (handle env net now latency store req).trace →
      (handle env net now latency store req).store =
        cacheSet env (now + latency)
          (if interpret req.headers = .INVALIDATE
            then cacheDel (cacheGet now store req.key).2 req.key
            else (cacheGet now store req.key).2)
          req.key v (ttlOf req.queryTtl)) := by
  by_cases h1 : req.headers.lookup "cache-control" = some "no-cache"
  · have hd : interpret req.headers = .BYPASS := by simp [interpret, h1]
    rw [handle_bypass env net now latency store req h h1, hd]
    exact forward_store_shape env net _ req _ _ _ _ _ _ (by simp [Effect.isSet])
  by_cases h2 : req.headers.lookup "cache-control" = some "no-store"
  · have hd : interpret req.headers = .NO_STORE := by simp [interpret, h2]
    rw [handle_nostore env net now latency store req h h2, hd]
    exact forward_store_shape env net _ req _ _ _ _ _ _ (by simp [Effect.isSet])
  by_cases h3 : req.headers.lookup "x-cache-invalidate" = some "true"
  · have hd : interpret req.headers = .INVALIDATE := by simp [interpret, h1, h2, h3]
    rw [handle_invalidate env net now latency store req h h1 h2 h3, hd]
    exact forward_store_shape env net _ req _ _ _ _ _ _ (by simp [Effect.isSet])
  have hd : interpret req.headers = .USE_CACHE := by simp [interpret, h1, h2, h3]
  cases hc : (cacheGet now store req.key).1 with
  | some cached =>
    rw [handle_hit env net now latency store req cached h h1 h2 h3 hc, hd]
    refine ⟨fun _ => rfl, ?_⟩
    intro k v t hmem
    simp at hmem
  | none =>
    rw [handle_miss env net now latency store req h h1 h2 h3 hc, hd]
    exact forward_store_shape env net _ req _ _ _ _ _ _ (by simp [Effect.isSet])

/-- A lookup returns the value of the entry at the key unless that entry has expired. -/
theorem cacheGet_value (now : Int) (s : Store) (key : String) (e : CacheEntry)
    (h : s key = some e) :
    (cacheGet now s key).1 = if expired now e = true then none else some e.value := by
  unfold cacheGet
  rw [h]
  by_cases he : expired now e = true
  · simp [he]
  · simp [he]

/-- A request that wrote the cache wrote one response, on its own key and with the
TTL of its `ttl` parameter, and left it in the store stamped with the time of the
write. -/
theorem handle_written (env : Env) (net : UpstreamCall → NetResult) (now : Int)
    (latency : Nat) (store : Store) (req : Request)
    (hset : (handle env net now latency store req).trace.any Effect.isSet = true) :
    ∃ v, Effect.cacheSet req.key v (ttlOf req.queryTtl) ∈
        (handle env net now latency store req).trace ∧
      (∀ k w t, Effect.cacheSet k w t ∈ (handle env net now latency store req).trace →
        k = req.key ∧ w = v ∧ t = ttlOf req.queryTtl) ∧
      (handle env net now latency store req).store req.key =
        some { value := v, insertedAt := now + latency
               ttlSeconds := retentionOf env (ttlOf req.queryTtl) } := by
  have hacc : accepted env req = true := by
    cases hacc : accepted env req with
    | true => rfl
    | false =>
      rw [handle_not_accepted env net now latency store req hacc] at hset
      simp at hset
  obtain ⟨pre, post, ht, hpre, hpost⟩ := handle_trace env net now latency store req hacc
  have hshape := (handle_store_shape env net now latency store req hacc).2
  rcases hpost with rfl | rfl | ⟨v, rfl⟩
  · rw [ht] at hset
    rcases hpre with rfl | rfl <;> simp [Effect.isSet] at hset
  · rw [ht] at hset
    rcases hpre with rfl | rfl <;> simp [Effect.isSet] at hset
  · have hmem : Effect.cacheSet req.key v (ttlOf req.queryTtl) ∈
        (handle env net now latency store req).trace := by
      rw [ht]
      simp
    refine ⟨v, hmem, ?_, ?_⟩
    · intro k w t hin
      rw [ht, List.mem_append] at hin
      rcases hin with hin | hin
      · rcases hpre with rfl | rfl <;> simp at hin
      · simp only [List.mem_cons, List.mem_singleton, List.not_mem_nil, or_false] at hin
        rcases hin with hin | hin
        · cases hin
        · injection hin with hk hw htt
          exact ⟨hk, hw, htt⟩
    · rw [hshape _ _ _ hmem]
      exact cacheSet_lookup env _ _ _ _ _

/-! ### The claims -/

/-- C8, counterexample: the method `get` equals `GET` when compared without regard
to case, yet the key derived for it is the target followed by `-get`, and that
is the key the handler looks up. -/
theorem cacheKey_case_counterexample :
    lower "get" = lower "GET" ∧
    cacheKeyOf "http://a/x" "get" = "http://a/x-get" ∧
    cacheKeyOf "http://a/x" "get" ≠ "http://a/x" ∧
    (handle sampleEnv (always 200 [] []) 0 0 Store.empty
      (withMethod (getOf "http://a/x") "get")).trace.head? = some (.cacheGet "http://a/x-get") := by
  decide

/-- C8 (amended): for every target `u` and method `m`, the cache key is exactly `u`
when `m` is exactly the string `GET` (compared case-sensitively) and `u` followed
by `-` and `m` otherwise, with no normalization of `u`; and on every accepted
request the handler derives the key in this way from the `url` parameter and from
the method (the `method` query parameter when given, the request method otherwise),
looks this key up first and makes every cache call on it. -/
theorem cacheKey_exact (env : Env) (net : UpstreamCall → NetResult) (now : Int)
    (latency : Nat) (store : Store) (req : Request) (h : accepted env req = true) :
    (∀ u m : String, cacheKeyOf u m = if m = "GET" then u else u ++ "-" ++ m) ∧
    req.key = (if req.effectiveMethod = "GET" then req.target
      else req.target ++ "-" ++ req.effectiveMethod) ∧
    (handle env net now latency store req).trace.head? = some (.cacheGet req.key) ∧
    ∀ e ∈ (handle env net now latency store req).trace, ∀ k, e.key? = some k → k = req.key := by
  have hpure : ∀ u m : String, cacheKeyOf u m = if m = "GET" then u else u ++ "-" ++ m := by
    intro u m
    unfold cacheKeyOf
    by_cases hm : m = "GET"
    · simp [hm]
    · simp [hm, String.append_assoc]
  refine ⟨hpure, hpure _ _, ?_, ?_⟩
  · obtain ⟨pre, post, ht, hpre, _⟩ := handle_trace env net now latency store req h
    rw [ht]
    rcases hpre with rfl | rfl <;> rfl
  · obtain ⟨pre, post, ht, hpre, hpost⟩ := handle_trace env net now latency store req h
    rw [ht]
    intro e he k hk
    rw [List.mem_append] at he
    rcases he with he | he
    · rcases hpre with rfl | rfl
      · simp only [List.mem_singleton] at he
        subst he
        simpa [Effect.key?] using hk.symm
      · simp only [List.mem_cons, List.mem_singleton, List.not_mem_nil, or_false] at he
        rcases he with rfl | rfl <;> simpa [Effect.key?] using hk.symm
    · rcases hpost with rfl | rfl | ⟨v, rfl⟩
      · simp at he
      · simp only [List.mem_singleton] at he
        subst he
        simp [Effect.key?] at hk
      · simp only [List.mem_cons, List.mem_singleton, List.not_mem_nil, or_false] at he
        rcases he with rfl | rfl
        · simp [Effect.key?] at hk
        · simpa [Effect.key?] using hk.symm

/-- C8 (amended), evaluated on `GET /proxy?url=http://a/x&method=POST`. -/
theorem cacheKey_exact_witness :
    accepted sampleEnv (withMethod (getOf "http://a/x") "POST") = true ∧
    (withMethod (getOf "http://a/x") "POST").key = "http://a/x-POST" ∧
    (handle sampleEnv (always 200 [] []) 0 0 Store.empty
      (withMethod (getOf "http://a/x") "POST")).trace.head?
        = some (.cacheGet (withMethod (getOf "http://a/x") "POST").key) :=
  ⟨by decide, by decide,
    (cacheKey_exact sampleEnv (always 200 [] []) 0 0 Store.empty
      (withMethod (getOf "http://a/x") "POST") (by decide)).2.2.1⟩

/-- C9, counterexample: the pairs (`http://a/x-POST`, `GET`) and (`http://a/x`, `POST`)
differ in the target and in the method and have the same cache key, and the entry
stored for the first request is served, as a hit and without an upstream call, to
the second. -/
theorem cacheKey_collision_counterexample :
    ("http://a/x-POST", "GET") ≠ ("http://a/x", "POST") ∧
    cacheKeyOf "http://a/x-POST" "GET" = cacheKeyOf "http://a/x" "POST" ∧
    (handle sampleEnv (always 200 [] [2]) 10 0
      (handle sampleEnv (always 200 [] [1]) 0 0 Store.empty (getOf "http://a/x-POST")).store
      (withMethod (getOf "http://a/x") "POST")).trace = [.cacheGet "http://a/x-POST"] ∧
    (handle sampleEnv (always 200 [] [2]) 10 0
      (handle sampleEnv (always 200 [] [1]) 0 0 Store.empty (getOf "http://a/x-POST")).store
      (withMethod (getOf "http://a/x") "POST")).res.body = .raw [1] := by
  decide

/-- C9 (amended): two requests with the same target and different methods, or with
the same method and different targets, have different cache keys, so that on a
store that holds only what the first request left there the lookup of the second
finds nothing. -/
theorem cacheKey_separates (env : Env) (net : UpstreamCall → NetResult) (now1 now2 : Int)
    (latency : Nat) (r1 r2 : Request)
    (h : (r1.target = r2.target ∧ r1.effectiveMethod ≠ r2.effectiveMethod) ∨
      (r1.target ≠ r2.target ∧ r1.effectiveMethod = r2.effectiveMethod)) :
    r1.key ≠ r2.key ∧
    (cacheGet now2 (handle env net now1 latency Store.empty r1).store r2.key).1 = none := by
  have hne : r1.key ≠ r2.key := cacheKeyOf_separates _ _ _ _ h
  refine ⟨hne, ?_⟩
  have habs : (handle env net now1 latency Store.empty r1).store r2.key = none := by
    cases hs : (handle env net now1 latency Store.empty r1).store r2.key with
    | none => rfl
    | some e =>
      rcases handle_store_entries env net now1 latency Store.empty r1 r2.key e hs with
        hold | ⟨hk, _⟩
      · simp [Store.empty] at hold
      · exact absurd hk.symm hne
  rw [cacheGet_absent now2 _ r2.key habs]

/-- C9 (amended), evaluated on `GET` and `POST` for the target `http://a/x`. -/
theorem cacheKey_separates_witness :
    (getOf "http://a/x").key ≠ (withMethod (getOf "http://a/x") "POST").key ∧
    (cacheGet 10 (handle sampleEnv (always 200 [] [1]) 0 0 Store.empty
      (getOf "http://a/x")).store (withMethod (getOf "http://a/x") "POST").key).1 = none :=
  cacheKey_separates sampleEnv (always 200 [] [1]) 0 10 0 (getOf "http://a/x")
    (withMethod (getOf "http://a/x") "POST") (Or.inl ⟨by decide, by decide⟩)

/-- C5, counterexample: on `GET /proxy?url=` the `url` parameter is present and
fails URL validation, and the answer is `URL is required`, not `Invalid URL`. -/
theorem empty_url_counterexample :
    (getOf "").queryUrl = some "" ∧
    sampleEnv.validURL "" = false ∧
    (handle sampleEnv (always 200 [] []) 0 0 Store.empty (getOf "")).res.status = 400 ∧
    (handle sampleEnv (always 200 [] []) 0 0 Store.empty (getOf "")).res.body
      = .error "URL is required" ∧
    (handle sampleEnv (always 200 [] []) 0 0 Store.empty (getOf "")).res.body
      ≠ .error "Invalid URL" := by
  decide

/-- C5 (amended): a request whose `url` parameter is missing or empty is answered
400 with the error `URL is required`, and a request whose `url` is a non-empty
string that fails URL validation is answered 400 with the error `Invalid URL`;
in both cases, and in both handlers, no header is set, the store is left as it
was, and no call is made on the cache or on the upstream. -/
theorem validation_short_circuit (env : Env) (net : UpstreamCall → NetResult) (now : Int)
    (latency : Nat) (store : Store) (req : Request)
    (h : req.queryUrl = none ∨ req.queryUrl = some "" ∨ env.validURL req.target = false) :
    handle env net now latency store req =
      { res := { status := 400, sets := []
                 body := .error (if req.queryUrl = none ∨ req.queryUrl = some ""
                   then "URL is required" else "Invalid URL") }
        store := store, trace := [] } ∧
    handleBasic env net now latency store req =
      { res := { status := 400, sets := []
                 body := .error (if req.queryUrl = none ∨ req.queryUrl = some ""
                   then "URL is required" else "Invalid URL") }
        store := store, trace := [] } := by
  have hacc : accepted env req = false := by
    unfold accepted
    by_cases ht : truthy req.queryUrl = false
    · simp [ht]
    · rcases h with h | h | h
      · exact absurd ((truthy_eq_false_iff _).2 (Or.inl h)) ht
      · exact absurd ((truthy_eq_false_iff _).2 (Or.inr h)) ht
      · simp [h]
  have hmsg : (if truthy req.queryUrl then "Invalid URL" else "URL is required")
      = (if req.queryUrl = none ∨ req.queryUrl = some "" then "URL is required"
          else "Invalid URL") := by
    by_cases ht : truthy req.queryUrl = false
    · have := (truthy_eq_false_iff _).1 ht
      simp [ht, this]
    · have hn : ¬ (req.queryUrl = none ∨ req.queryUrl = some "") :=
        fun hq => ht ((truthy_eq_false_iff _).2 hq)
      simp only [Bool.not_eq_false] at ht
      simp [ht, hn]
  rw [handle_not_accepted env net now latency store req hacc,
    handleBasic_not_accepted env net now latency store req hacc, hmsg]
  exact ⟨rfl, rfl⟩

/-- C5 (amended), evaluated on `GET /proxy?url=not-a-url`. -/
theorem validation_short_circuit_witness :
    sampleEnv.validURL (getOf "not-a-url").target = false ∧
    (handle sampleEnv (always 200 [] []) 0 0 Store.empty (getOf "not-a-url")).res.body
      = .error "Invalid URL" ∧
    (handle sampleEnv (always 200 [] []) 0 0 Store.empty (getOf "not-a-url")).trace = [] :=
  ⟨by decide,
    by
      rw [(validation_short_circuit sampleEnv (always 200 [] []) 0 0 Store.empty
        (getOf "not-a-url") (Or.inr (Or.inr (by decide)))).1]
      decide,
    by
      rw [(validation_short_circuit sampleEnv (always 200 [] []) 0 0 Store.empty
        (getOf "not-a-url") (Or.inr (Or.inr (by decide)))).1]⟩

/-- C3, counterexample: a request with `cache-control: no-cache` whose `url` fails
validation is a `BYPASS` for the interpreter, yet the handler sets no `X-Cache`
label and makes no upstream call; and a request with `x-cache-invalidate: true`
and an empty `url` is an `INVALIDATE`, yet the handler makes no call on the cache. -/
theorem directive_counterexample :
    interpret (withHeader (getOf "not-a-url") "cache-control" "no-cache").headers = .BYPASS ∧
    (handle sampleEnv (always 200 [] [1]) 0 0 Store.empty
      (withHeader (getOf "not-a-url") "cache-control" "no-cache")).res =
        { status := 400, sets := [], body := .error "Invalid URL" } ∧
    (handle sampleEnv (always 200 [] [1]) 0 0 Store.empty
      (withHeader (getOf "not-a-url") "cache-control" "no-cache")).trace = [] ∧
    interpret (withHeader (getOf "") "x-cache-invalidate" "true").headers = .INVALIDATE ∧
    (handle sampleEnv (always 200 [] [1]) 0 0 Store.empty
      (withHeader (getOf "") "x-cache-invalidate" "true")).res.sets = [] ∧
    (handle sampleEnv (always 200 [] [1]) 0 0 Store.empty
      (withHeader (getOf "") "x-cache-invalidate" "true")).trace = [] := by
  decide

/-- C3 (amended): on every request that passes validation the handler behaves as the
first-match-wins interpreter of the specification says.  Its first `res.set` call
puts in `X-Cache` the label of the directive (`BYPASS` for cache-control `no-cache`,
else `NOCACHE` for `no-store`, else `INVALIDATED` for `x-cache-invalidate: true`,
else `HIT` when the lookup succeeds and `MISS` when it does not).  It calls
`cache.del` on the key exactly under `INVALIDATE`, and it answers without calling
the upstream exactly under `USE_CACHE` with a successful lookup, in which case it
serves the cached status, headers and body.  The store it leaves is the store
after the lookup, with the entry at the key removed exactly under `INVALIDATE`,
and with the response it wrote, if it wrote one, put at the key: so an
`INVALIDATE` that writes nothing leaves no entry at the key, and any other
directive that writes nothing (a `no-cache` request that also carries
`x-cache-invalidate: true`, say) leaves an unexpired entry where it was. -/
theorem directive_first_match (env : Env) (net : UpstreamCall → NetResult) (now : Int)
    (latency : Nat) (store : Store) (req : Request) (h : accepted env req = true) :
    ((handle env net now latency store req).res.sets.head? =
      some ("X-Cache", (interpret req.headers).label (cacheGet now store req.key).1.isSome) ∧
    ((handle env net now latency store req).trace.any Effect.isDel = true ↔
      interpret req.headers = .INVALIDATE) ∧
    (interpret req.headers = .INVALIDATE →
      Effect.cacheDel req.key ∈ (handle env net now latency store req).trace) ∧
    ((handle env net now latency store req).trace.any Effect.isUpstream = false ↔
      (interpret req.headers = .USE_CACHE ∧ (cacheGet now store req.key).1.isSome = true)) ∧
    (∀ cached, interpret req.headers = .USE_CACHE →
      (cacheGet now store req.key).1 = some cached →
      (handle env net now latency store req).res =
        { status := cached.status, sets := ("X-Cache", "HIT") :: cached.headers
          body := cached.data })) ∧
    ((handle env net now latency store req).trace.any Effect.isSet = false →
      (handle env net now latency store req).store =
        (if interpret req.headers = .INVALIDATE
          then cacheDel (cacheGet now store req.key).2 req.key
          else (cacheGet now store req.key).2)) ∧
    (∀ k v t, Effect.cacheSet k v t ∈ (handle env net now latency store req).trace →
      (handle env net now latency store req).store =
        cacheSet env (now + latency)
          (if interpret req.headers = .INVALIDATE
            then cacheDel (cacheGet now store req.key).2 req.key
            else (cacheGet now store req.key).2)
          req.key v (ttlOf req.queryTtl)) ∧
    (interpret req.headers = .INVALIDATE →
      (handle env net now latency store req).trace.any Effect.isSet = false →
      (handle env net now latency store req).store req.key = none) ∧
    (interpret req.headers ≠ .INVALIDATE →
      ∀ e, store req.key = some e → expired now e = false →
      (handle env net now latency store req).trace.any Effect.isSet = false →
      (handle env net now latency store req).store req.key = some e) := by
  have hshape := handle_store_shape env net now latency store req h
  have hobs : (handle env net now latency store req).res.sets.head? =
      some ("X-Cache", (interpret req.headers).label (cacheGet now store req.key).1.isSome) ∧
    ((handle env net now latency store req).trace.any Effect.isDel = true ↔
      interpret req.headers = .INVALIDATE) ∧
    (interpret req.headers = .INVALIDATE →
      Effect.cacheDel req.key ∈ (handle env net now latency store req).trace) ∧
    ((handle env net now latency store req).trace.any Effect.isUpstream = false ↔
      (interpret req.headers = .USE_CACHE ∧ (cacheGet now store req.key).1.isSome = true)) ∧
    (∀ cached, interpret req.headers = .USE_CACHE →
      (cacheGet now store req.key).1 = some cached →
      (handle env net now latency store req).res =
        { status := cached.status, sets := ("X-Cache", "HIT") :: cached.headers
          body := cached.data }) := by
      by_cases h1 : req.headers.lookup "cache-control" = some "no-cache"
      · have hd : interpret req.headers = .BYPASS := by simp [interpret, h1]
        rw [handle_bypass env net now latency store req h h1, hd]
        obtain ⟨f1, f2, f3⟩ := forward_observed env net (now + latency) req req.key
          (some "no-cache") (ttlOf req.queryTtl) "BYPASS" (cacheGet now store req.key).2
          [.cacheGet req.key]
        refine ⟨f1, ?_, ?_, ?_, ?_⟩
        · rw [f2]; simp [Effect.isDel]
        · intro hc; cases hc
        · rw [f3]; simp
        · intro cached hc; cases hc
      by_cases h2 : req.headers.lookup "cache-control" = some "no-store"
      · have hd : interpret req.headers = .NO_STORE := by simp [interpret, h2]
        rw [handle_nostore env net now latency store req h h2, hd]
        obtain ⟨f1, f2, f3⟩ := forward_observed env net (now + latency) req req.key
          (some "no-store") (ttlOf req.queryTtl) "NOCACHE" (cacheGet now store req.key).2
          [.cacheGet req.key]
        refine ⟨f1, ?_, ?_, ?_, ?_⟩
        · rw [f2]; simp [Effect.isDel]
        · intro hc; cases hc
        · rw [f3]; simp
        · intro cached hc; cases hc
      by_cases h3 : req.headers.lookup "x-cache-invalidate" = some "true"
      · have hd : interpret req.headers = .INVALIDATE := by simp [interpret, h1, h2, h3]
        rw [handle_invalidate env net now latency store req h h1 h2 h3, hd]
        obtain ⟨f1, f2, f3⟩ := forward_observed env net (now + latency) req req.key
          (req.headers.lookup "cache-control") (ttlOf req.queryTtl) "INVALIDATED"
          (cacheDel (cacheGet now store req.key).2 req.key) [.cacheGet req.key, .cacheDel req.key]
        obtain ⟨tail, post, _, ht, _⟩ := forward_summary env net (now + latency) req req.key
          (req.headers.lookup "cache-control") (ttlOf req.queryTtl) [("X-Cache", "INVALIDATED")]
          (cacheDel (cacheGet now store req.key).2 req.key) [.cacheGet req.key, .cacheDel req.key]
        refine ⟨f1, ?_, ?_, ?_, ?_⟩
        · rw [f2]; simp [Effect.isDel]
        · intro _; rw [ht]; simp
        · rw [f3]; simp
        · intro cached hc; cases hc
      have hd : interpret req.headers = .USE_CACHE := by simp [interpret, h1, h2, h3]
      cases hc : (cacheGet now store req.key).1 with
      | some cached =>
        rw [handle_hit env net now latency store req cached h h1 h2 h3 hc, hd]
        refine ⟨rfl, ?_, ?_, ?_, ?_⟩
        · simp [Effect.isDel]
        · intro hc2; cases hc2
        · simp [Effect.isUpstream]
        · intro c _ hc2
          cases hc2
          rfl
      | none =>
        rw [handle_miss env net now latency store req h h1 h2 h3 hc, hd]
        obtain ⟨f1, f2, f3⟩ := forward_observed env net (now + latency) req req.key
          (req.headers.lookup "cache-control") (ttlOf req.queryTtl) "MISS"
          (cacheGet now store req.key).2 [.cacheGet req.key]
        refine ⟨f1, ?_, ?_, ?_, ?_⟩
        · rw [f2]; simp [Effect.isDel]
        · intro hc2; cases hc2
        · rw [f3]; simp
        · intro c _ hc2; cases hc2
  refine ⟨hobs, hshape.1, hshape.2, ?_, ?_⟩
  · intro hd hno
    rw [hshape.1 hno]
    simp [hd, cacheDel, Store.update]
  · intro hd e he hlive hno
    rw [hshape.1 hno]
    simp only [hd, if_false]
    rw [cacheGet_live now store req.key e he hlive]
    exact he

/-- C3 (amended), evaluated on a request that carries both `cache-control: no-cache`
and `x-cache-invalidate: true`, on a store that holds an entry for the key, the
upstream answering 503: it is a `BYPASS`, it makes no `cache.del` call and the
entry is still there afterwards. -/
theorem directive_first_match_witness :
    accepted sampleEnv (withHeader (withHeader (getOf "http://a/x") "cache-control" "no-cache")
      "x-cache-invalidate" "true") = true ∧
    interpret (withHeader (withHeader (getOf "http://a/x") "cache-control" "no-cache")
      "x-cache-invalidate" "true").headers = .BYPASS ∧
    ¬ ((handle sampleEnv (always 503 [] []) 10 0
        (handle sampleEnv (always 200 [] [1]) 0 0 Store.empty (getOf "http://a/x")).store
        (withHeader (withHeader (getOf "http://a/x") "cache-control" "no-cache")
          "x-cache-invalidate" "true")).trace.any Effect.isDel = true) ∧
    (handle sampleEnv (always 503 [] []) 10 0
        (handle sampleEnv (always 200 [] [1]) 0 0 Store.empty (getOf "http://a/x")).store
        (withHeader (withHeader (getOf "http://a/x") "cache-control" "no-cache")
          "x-cache-invalidate" "true")).store
      (withHeader (withHeader (getOf "http://a/x") "cache-control" "no-cache")
        "x-cache-invalidate" "true").key =
      some { value := { status := 200, headers := [], data := .raw [1] }
             insertedAt := 0, ttlSeconds := 3600 } :=
  have hw := directive_first_match sampleEnv (always 503 [] []) 10 0
    (handle sampleEnv (always 200 [] [1]) 0 0 Store.empty (getOf "http://a/x")).store
    (withHeader (withHeader (getOf "http://a/x") "cache-control" "no-cache")
      "x-cache-invalidate" "true") (by decide)
  ⟨by decide, by decide,
    fun hdel => absurd (hw.1.2.1.1 hdel) (by decide),
    hw.2.2.2.2 (by decide) _ (by decide) (by decide) (by decide)⟩

/-- C2: the handler writes an entry to the cache only if the cache-control header of
the request is not `no-store` and the upstream call returned a status strictly
below 400, the entry written being that response; hence, starting from an empty
store, after any sequence of requests every stored entry has a status below 400;
and a request whose upstream outcome is a failure or a status of 400 or more
makes no write and leaves no entry in the store that was not there before. -/
theorem store_eligibility (env : Env) :
    (∀ (net : UpstreamCall → NetResult) (now : Int) (latency : Nat) (store : Store)
        (req : Request) (key : String) (v : CachedResponse) (ttl : Option Int),
      Effect.cacheSet key v ttl ∈ (handle env net now latency store req).trace →
        req.headers.lookup "cache-control" ≠ some "no-store" ∧ v.status < 400 ∧
        ∃ data, net req.call = .response v.status v.headers data) ∧
    (∀ (steps : List Step) (k : String) (e : CacheEntry),
      run env Store.empty steps k = some e → e.value.status < 400) ∧
    (∀ (net : UpstreamCall → NetResult) (now : Int) (latency : Nat) (store : Store)
        (req : Request),
      (∀ status headers data, net req.call = .response status headers data → 400 ≤ status) →
        (handle env net now latency store req).trace.any Effect.isSet = false ∧
        ∀ k e, (handle env net now latency store req).store k = some e → store k = some e) := by
  refine ⟨?_, ?_, ?_⟩
  · intro net now latency store req key v ttl hmem
    exact handle_set_in_trace env net now latency store req key v ttl hmem
  · intro steps k e hk
    exact run_invariant env steps Store.empty (by intro k e hk; simp [Store.empty] at hk) k e hk
  · intro net now latency store req hbad
    constructor
    · rw [List.any_eq_false]
      intro x hx hset
      cases x with
      | cacheSet key v ttl =>
        obtain ⟨_, hs, d, hnet⟩ := handle_set_in_trace env net now latency store req key v ttl hx
        have := hbad _ _ _ hnet
        omega
      | cacheGet key => simp [Effect.isSet] at hset
      | cacheDel key => simp [Effect.isSet] at hset
      | upstream call => simp [Effect.isSet] at hset
    · intro k e hk
      rcases handle_store_entries env net now latency store req k e hk with
        hold | ⟨_, _, hs, _, d, hnet⟩
      · exact hold
      · have := hbad _ _ _ hnet
        omega

/-- C2, evaluated on an upstream that answers 404 and on a two-request sequence. -/
theorem store_eligibility_witness :
    (handle sampleEnv (always 404 [] [1]) 0 0 Store.empty (getOf "http://a/x")).trace.any
      Effect.isSet = false ∧
    (handle sampleEnv (always 404 [] [1]) 0 0 Store.empty (getOf "http://a/x")).res.status = 404 ∧
    (∀ e, run sampleEnv Store.empty
        [⟨always 200 [] [1], 0, 0, getOf "http://a/x"⟩, ⟨always 404 [] [2], 5, 0, getOf "http://a/y"⟩]
        "http://a/x" = some e → e.value.status < 400) :=
  ⟨((store_eligibility sampleEnv).2.2 (always 404 [] [1]) 0 0 Store.empty (getOf "http://a/x")
      (by intro status headers data hnet
          simp only [always, NetResult.response.injEq] at hnet
          omega)).1,
    by decide,
    fun e he => (store_eligibility sampleEnv).2.1 _ "http://a/x" e he⟩

/-- C7, counterexample: the 400 response to a request that fails validation carries
no `X-Cache` header at all; and when the upstream response has an `x-cache` header
of its own, the handler first sets `X-Cache: MISS` and then replaces it with the
upstream value. -/
theorem xcache_counterexample :
    (handle sampleEnv (always 200 [] []) 0 0 Store.empty (getOf "not-a-url")).res.status = 400 ∧
    (handle sampleEnv (always 200 [] []) 0 0 Store.empty
      (getOf "not-a-url")).res.countHeader "X-Cache" = 0 ∧
    (handle sampleEnv (always 200 [("x-cache", "Hit from cloudfront")] [1]) 0 0 Store.empty
      (getOf "http://a/x")).res.sets.head? = some ("X-Cache", "MISS") ∧
    (handle sampleEnv (always 200 [("x-cache", "Hit from cloudfront")] [1]) 0 0 Store.empty
      (getOf "http://a/x")).res.getHeader "X-Cache" = some "Hit from cloudfront" := by
  decide

/-- C7 (amended): every response to a request that passes validation carries exactly
one `X-Cache` header.  The label the handler computes for the request is one of
HIT, MISS, BYPASS, NOCACHE, INVALIDATED, and it is HIT exactly when the cached entry
was served without an upstream call.  When neither the upstream response nor the
cached entry has an `x-cache` header of its own, the `X-Cache` header of the
response is that label. -/
theorem xcache_header (env : Env) (net : UpstreamCall → NetResult) (now : Int)
    (latency : Nat) (store : Store) (req : Request) (h : accepted env req = true) :
    (handle env net now latency store req).res.countHeader "X-Cache" = 1 ∧
    (interpret req.headers).label (cacheGet now store req.key).1.isSome
      ∈ ["HIT", "MISS", "BYPASS", "NOCACHE", "INVALIDATED"] ∧
    ((interpret req.headers).label (cacheGet now store req.key).1.isSome = "HIT" ↔
      (handle env net now latency store req).trace.any Effect.isUpstream = false) ∧
    ((∀ status headers data, net req.call = .response status headers data →
        ∀ e ∈ headers, sameName "X-Cache" e = false) →
      (∀ cached, (cacheGet now store req.key).1 = some cached →
        ∀ e ∈ cached.headers, sameName "X-Cache" e = false) →
      (handle env net now latency store req).res.getHeader "X-Cache" =
        some ((interpret req.headers).label (cacheGet now store req.key).1.isSome)) := by
  obtain ⟨tail, hs, hor⟩ := handle_sets env net now latency store req h
  have hres : (handle env net now latency store req).res =
      { status := (handle env net now latency store req).res.status
        sets := ("X-Cache", (interpret req.headers).label (cacheGet now store req.key).1.isSome)
          :: tail
        body := (handle env net now latency store req).res.body } := by
    rw [← hs]
  have hxc : ∀ v : String, sameName "X-Cache" ("X-Cache", v) = true := by
    intro v
    simp [sameName]
  refine ⟨?_, ?_, ?_, ?_⟩
  · rw [hres]
    exact countHeader_first _ _ _ _ _ _ (hxc _)
  · cases interpret req.headers <;> cases (cacheGet now store req.key).1.isSome <;>
      simp [Directive.label]
  · rw [handle_upstream_iff env net now latency store req h]
    cases interpret req.headers <;> cases (cacheGet now store req.key).1.isSome <;>
      simp [Directive.label]
  · intro hup hcached
    rw [hres]
    apply getHeader_first _ _ _ _ _ _ (hxc _)
    rcases hor with ⟨rfl, _⟩ | ⟨⟨status, data, hnet⟩, _⟩ | ⟨c, hc, rfl, _, _⟩
    · intro e he
      cases he
    · exact hup status tail data hnet
    · exact hcached c hc

/-- C7 (amended), evaluated on a miss whose upstream response has a content type
and no `x-cache` header. -/
theorem xcache_header_witness :
    accepted sampleEnv (getOf "http://a/x") = true ∧
    (handle sampleEnv (always 200 [("content-type", "text/plain")] [1]) 0 0 Store.empty
      (getOf "http://a/x")).res.countHeader "X-Cache" = 1 ∧
    (handle sampleEnv (always 200 [("content-type", "text/plain")] [1]) 0 0 Store.empty
      (getOf "http://a/x")).res.getHeader "X-Cache" =
        some ((interpret (getOf "http://a/x").headers).label
          (cacheGet 0 Store.empty (getOf "http://a/x").key).1.isSome) ∧
    (interpret (getOf "http://a/x").headers).label
      (cacheGet 0 Store.empty (getOf "http://a/x").key).1.isSome = "MISS" :=
  ⟨by decide,
    (xcache_header sampleEnv (always 200 [("content-type", "text/plain")] [1]) 0 0 Store.empty
      (getOf "http://a/x") (by decide)).1,
    (xcache_header sampleEnv (always 200 [("content-type", "text/plain")] [1]) 0 0 Store.empty
      (getOf "http://a/x") (by decide)).2.2.2
      (by
        intro status headers data hnet e he
        simp only [always, NetResult.response.injEq] at hnet
        obtain ⟨_, hh, _⟩ := hnet
        subst hh
        simp only [List.mem_singleton] at he
        subst he
        decide)
      (by
        intro cached hc
        simp [cacheGet, Store.empty] at hc),
    by decide⟩

/-- C6, counterexample: an upstream response with status 200, content type
`application/json` and an empty body, on which `JSON.parse` throws, is answered
with status 500 and the error `Internal Server Error`. -/
theorem passthrough_counterexample :
    sampleEnv.jsonParse [] = none ∧
    (handle sampleEnv (always 200 [("content-type", "application/json")] []) 0 0 Store.empty
      (getOf "http://a/x")).res.status = 500 ∧
    (handle sampleEnv (always 200 [("content-type", "application/json")] []) 0 0 Store.empty
      (getOf "http://a/x")).res.body = .error "Internal Server Error" ∧
    (handle sampleEnv (always 200 [("content-type", "application/json")] []) 0 0 Store.empty
      (getOf "http://a/x")).res.getHeader "content-type" = none := by
  decide

/-- C6 (amended): when the handler forwards an accepted request and the upstream
answers with a status below 500 (every 4xx included) and a body that is not a
JSON-typed body on which `JSON.parse` throws, the response has the upstream
status, has the upstream body (the parsed value for a JSON content type, the
bytes as received for any other), is not an error response, and carries every
upstream response header with its value. -/
theorem passthrough_below_500 (env : Env) (net : UpstreamCall → NetResult) (now : Int)
    (latency : Nat) (store : Store) (req : Request)
    (status : Nat) (headers : Headers) (data : Bytes) (responseData : Body)
    (h : accepted env req = true)
    (hfwd : (handle env net now latency store req).trace.any Effect.isUpstream = true)
    (hnet : net req.call = .response status headers data) (h500 : status < 500)
    (hparse : responseDataOf env headers data = some responseData)
    (hnodup : (headers.map (fun e => lower e.1)).Nodup) :
    (handle env net now latency store req).res.status = status ∧
    (handle env net now latency store req).res.body = responseData ∧
    (includes ((headers.lookup "content-type").getD "") "application/json" = false →
      (handle env net now latency store req).res.body = .raw data) ∧
    (∀ message, (handle env net now latency store req).res.body ≠ .error message) ∧
    (∀ e ∈ headers, (handle env net now latency store req).res.getHeader e.1 = some e.2) := by
  have hres := handle_forwarded_response env net now latency store req status headers data
    responseData h hfwd hnet h500 hparse
  rw [hres]
  refine ⟨rfl, rfl, ?_, ?_, ?_⟩
  · intro hj
    unfold responseDataOf at hparse
    simp only [hj, Bool.false_eq_true, if_false, Option.some.injEq] at hparse
    exact hparse.symm
  · intro message
    exact responseDataOf_not_error env headers data responseData hparse message
  · intro e he
    rw [getHeader_eq]
    simp only [List.reverse_cons, List.find?_append]
    rw [find_of_nodup headers e he hnodup]
    rfl

/-- C6 (amended), evaluated on an upstream that answers 429 with `Retry-After: 60`
and a JSON body. -/
theorem passthrough_below_500_witness :
    (handle sampleEnv
      (always 429 [("retry-after", "60"), ("content-type", "application/json")] sampleJsonBytes)
      0 0 Store.empty (getOf "http://a/x")).res.status = 429 ∧
    (handle sampleEnv
      (always 429 [("retry-after", "60"), ("content-type", "application/json")] sampleJsonBytes)
      0 0 Store.empty (getOf "http://a/x")).res.body = .json ⟨sampleJsonText⟩ ∧
    (handle sampleEnv
      (always 429 [("retry-after", "60"), ("content-type", "application/json")] sampleJsonBytes)
      0 0 Store.empty (getOf "http://a/x")).res.getHeader "retry-after" = some "60" :=
  have hw := passthrough_below_500 sampleEnv
    (always 429 [("retry-after", "60"), ("content-type", "application/json")] sampleJsonBytes)
    0 0 Store.empty (getOf "http://a/x") 429
    [("retry-after", "60"), ("content-type", "application/json")] sampleJsonBytes
    (.json ⟨sampleJsonText⟩) (by decide) (by decide) rfl (by decide) (by decide) (by decide)
  ⟨hw.1, hw.2.1, hw.2.2.2.2 ("retry-after", "60") (by decide)⟩

/-- C1, counterexample: when the upstream response has the header `x-cache: MISS`, the
first response shows `X-Cache: MISS` and the replay from the cache, made without
an upstream call, shows `X-Cache: MISS` again, not `HIT`; and when the upstream
answers 200 with a JSON content type and an empty body, nothing is stored and the
upstream is called for both requests. -/
theorem round_trip_counterexample :
    (handle sampleEnv (always 200 [("x-cache", "MISS")] [1]) 0 0 Store.empty
      (getOf "http://a/x")).res.getHeader "X-Cache" = some "MISS" ∧
    (handle sampleEnv (always 200 [("x-cache", "MISS")] [1]) 10 0
      (handle sampleEnv (always 200 [("x-cache", "MISS")] [1]) 0 0 Store.empty
        (getOf "http://a/x")).store
      (getOf "http://a/x")).trace = [.cacheGet "http://a/x"] ∧
    (handle sampleEnv (always 200 [("x-cache", "MISS")] [1]) 10 0
      (handle sampleEnv (always 200 [("x-cache", "MISS")] [1]) 0 0 Store.empty
        (getOf "http://a/x")).store
      (getOf "http://a/x")).res.getHeader "X-Cache" = some "MISS" ∧
    ((handle sampleEnv (always 200 [("content-type", "application/json")] []) 0 0 Store.empty
        (getOf "http://a/x")).trace ++
      (handle sampleEnv (always 200 [("content-type", "application/json")] []) 10 0
        (handle sampleEnv (always 200 [("content-type", "application/json")] []) 0 0 Store.empty
          (getOf "http://a/x")).store
        (getOf "http://a/x")).trace).countP Effect.isUpstream = 2 := by
  decide

/-- C1 (amended): take an accepted request without cache directive whose lookup
finds nothing, and an upstream response with a status below 400 that has no
`x-cache` header and whose body is not a JSON-typed body on which `JSON.parse`
throws.  The first response has the upstream status, body and headers, with
`X-Cache: MISS`.  An identical request made while the stored entry has not
expired makes no upstream call, only the lookup, and returns the same status, the
same body and the same headers, except that `X-Cache` is `HIT`; the upstream is
called exactly once in total. -/
theorem cache_round_trip (env : Env) (net net2 : UpstreamCall → NetResult) (now now2 : Int)
    (latency latency2 : Nat) (store : Store) (req : Request)
    (status : Nat) (headers : Headers) (data : Bytes) (responseData : Body)
    (h : accepted env req = true)
    (hcc : req.headers.lookup "cache-control" = none)
    (hinv : req.headers.lookup "x-cache-invalidate" = none)
    (hempty : (cacheGet now store req.key).1 = none)
    (hnet : net req.call = .response status headers data) (hs : status < 400)
    (hparse : responseDataOf env headers data = some responseData)
    (hx : ∀ e ∈ headers, sameName "X-Cache" e = false)
    (hlive : ∀ e, (handle env net now latency store req).store req.key = some e →
      expired now2 e = false) :
    (handle env net now latency store req).res =
      { status := status, sets := ("X-Cache", "MISS") :: headers, body := responseData } ∧
    (handle env net2 now2 latency2 (handle env net now latency store req).store req).res =
      { status := status, sets := ("X-Cache", "HIT") :: headers, body := responseData } ∧
    (handle env net now latency store req).res.getHeader "X-Cache" = some "MISS" ∧
    (handle env net2 now2 latency2 (handle env net now latency store req).store
      req).res.getHeader "X-Cache" = some "HIT" ∧
    (∀ n, sameName n ("X-Cache", "") = false →
      (handle env net2 now2 latency2 (handle env net now latency store req).store
        req).res.getHeader n = (handle env net now latency store req).res.getHeader n) ∧
    (handle env net2 now2 latency2 (handle env net now latency store req).store req).trace
      = [.cacheGet req.key] ∧
    ((handle env net now latency store req).trace ++
      (handle env net2 now2 latency2 (handle env net now latency store req).store
        req).trace).countP Effect.isUpstream = 1 := by
  have hd : interpret req.headers = .USE_CACHE := by simp [interpret, hcc, hinv]
  have hfirst := handle_miss_stored env net now latency store req status headers data
    responseData h hd hempty hnet hs hparse
  have hentry : (handle env net now latency store req).store req.key =
      some { value := { status := status, headers := headers, data := responseData }
             insertedAt := now + latency
             ttlSeconds := retentionOf env (ttlOf req.queryTtl) } := by
    rw [hfirst]
    exact cacheSet_lookup env _ _ _ _ _
  have hsecond := handle_hit_live env net2 now2 latency2
    (handle env net now latency store req).store req _ h hd hentry (hlive _ hentry)
  have hxc : sameName "X-Cache" ("X-Cache", "MISS") = true := by decide
  have hxc2 : sameName "X-Cache" ("X-Cache", "HIT") = true := by decide
  refine ⟨?_, ?_, ?_, ?_, ?_, ?_, ?_⟩
  · rw [hfirst]
  · rw [hsecond]
  · rw [hfirst]
    exact getHeader_first _ _ _ _ _ _ hxc hx
  · rw [hsecond]
    exact getHeader_first _ _ _ _ _ _ hxc2 hx
  · intro n hn
    have hn1 : sameName n ("X-Cache", "MISS") = false := hn
    have hn2 : sameName n ("X-Cache", "HIT") = false := hn
    rw [hsecond]
    rw [getHeader_rest _ _ _ _ _ _ hn2]
    rw [hfirst]
    rw [getHeader_rest _ _ _ _ _ _ hn1]
  · rw [hsecond]
  · rw [hsecond]
    rw [hfirst]
    simp [List.countP_cons, Effect.isUpstream]

/-- C1 (amended), evaluated on an upstream that answers 200 with an octet-stream
body, the second request coming ten milliseconds after the first. -/
theorem cache_round_trip_witness :
    (handle sampleEnv (always 500 [] []) 10 0
      (handle sampleEnv (always 200 [("content-type", "application/octet-stream")] [98, 105])
        0 0 Store.empty (getOf "http://a/x")).store
      (getOf "http://a/x")).res =
      { status := 200
        sets := [("X-Cache", "HIT"), ("content-type", "application/octet-stream")]
        body := .raw [98, 105] } ∧
    (handle sampleEnv (always 500 [] []) 10 0
      (handle sampleEnv (always 200 [("content-type", "application/octet-stream")] [98, 105])
        0 0 Store.empty (getOf "http://a/x")).store
      (getOf "http://a/x")).trace = [.cacheGet (getOf "http://a/x").key] :=
  have hw := cache_round_trip sampleEnv
    (always 200 [("content-type", "application/octet-stream")] [98, 105]) (always 500 [] [])
    0 10 0 0 Store.empty (getOf "http://a/x") 200
    [("content-type", "application/octet-stream")] [98, 105] (.raw [98, 105])
    (by decide) (by decide) (by decide) (by decide) rfl (by decide) (by decide)
    (by
      intro e he
      simp only [List.mem_singleton] at he
      subst he
      decide)
    (by
      intro e he
      have hv : (handle sampleEnv
          (always 200 [("content-type", "application/octet-stream")] [98, 105])
          0 0 Store.empty (getOf "http://a/x")).store (getOf "http://a/x").key
          = some { value := { status := 200
                              headers := [("content-type", "application/octet-stream")]
                              data := .raw [98, 105] }
                   insertedAt := 0, ttlSeconds := 3600 } := by decide
      rw [hv] at he
      cases he
      decide)
  ⟨hw.2.1, hw.2.2.2.2.2.1⟩

/-- C4, counterexample: an entry stored with `ttl=1` at time 0 is gone at time 1500 and
the next request is labelled `MISS` and forwarded, but the fresh upstream response
has the header `x-cache: HIT`, and the answer carries `X-Cache: HIT`. -/
theorem ttl_expiry_counterexample :
    (handle sampleEnv (always 200 [] [1]) 0 0 Store.empty
      (withTtl (getOf "http://a/x") "1")).trace.any Effect.isSet = true ∧
    (cacheGet 1500 (handle sampleEnv (always 200 [] [1]) 0 0 Store.empty
      (withTtl (getOf "http://a/x") "1")).store "http://a/x").1 = none ∧
    (handle sampleEnv (always 200 [("x-cache", "HIT")] [2]) 1500 0
      (handle sampleEnv (always 200 [] [1]) 0 0 Store.empty
        (withTtl (getOf "http://a/x") "1")).store
      (getOf "http://a/x")).trace.any Effect.isUpstream = true ∧
    (handle sampleEnv (always 200 [("x-cache", "HIT")] [2]) 1500 0
      (handle sampleEnv (always 200 [] [1]) 0 0 Store.empty
        (withTtl (getOf "http://a/x") "1")).store
      (getOf "http://a/x")).res.sets.head? = some ("X-Cache", "MISS") ∧
    (handle sampleEnv (always 200 [("x-cache", "HIT")] [2]) 1500 0
      (handle sampleEnv (always 200 [] [1]) 0 0 Store.empty
        (withTtl (getOf "http://a/x") "1")).store
      (getOf "http://a/x")).res.getHeader "X-Cache" = some "HIT" := by
  decide

/-- C4 (amended): let a request whose `ttl` parameter parses to `t ≥ 1` store an entry
at time `T = now + latency` (milliseconds).  At any time later than `T` plus `t`
seconds a lookup of its key returns absent, whatever sweeps the background reaper
has made in between.  The next accepted request without cache directive for that
key is labelled `MISS` and answered from a fresh upstream call; its `X-Cache` header
reads `MISS` when the fresh upstream response has no `x-cache` header of its own. -/
theorem ttl_expiry (env : Env) (net : UpstreamCall → NetResult) (now now2 : Int)
    (latency : Nat) (store : Store) (req : Request) (s : String) (t : Int)
    (sweeps : List Int)
    (hq : req.queryTtl = some s) (hparse : parseInt s = some t) (ht : 1 ≤ t)
    (hset : (handle env net now latency store req).trace.any Effect.isSet = true)
    (hlater : now + latency + t * 1000 < now2) :
    (cacheGet now2 (sweep (handle env net now latency store req).store sweeps) req.key).1
      = none ∧
    ∀ (net2 : UpstreamCall → NetResult) (latency2 : Nat) (req2 : Request),
      accepted env req2 = true → req2.key = req.key → interpret req2.headers = .USE_CACHE →
      (handle env net2 now2 latency2
        (sweep (handle env net now latency store req).store sweeps) req2).res.sets.head?
          = some ("X-Cache", "MISS") ∧
      (handle env net2 now2 latency2
        (sweep (handle env net now latency store req).store sweeps) req2).trace.any
          Effect.isUpstream = true ∧
      ((∀ status headers data, net2 req2.call = .response status headers data →
          ∀ e ∈ headers, sameName "X-Cache" e = false) →
        (handle env net2 now2 latency2
          (sweep (handle env net now latency store req).store sweeps) req2).res.getHeader
            "X-Cache" = some "MISS") := by
  obtain ⟨v, hentry⟩ := handle_store_after_set env net now latency store req hset
  have hret : retentionOf env (ttlOf req.queryTtl) = t := by
    rw [hq, ttlOf_parsed s t hparse]
    have h0 : t ≠ 0 := by omega
    simp [retentionOf, h0]
  rw [hret] at hentry
  have hgone : ∀ e, sweep (handle env net now latency store req).store sweeps req.key = some e →
      expired now2 e = true := by
    intro e he
    have he2 := sweep_sub sweeps _ req.key e he
    rw [hentry] at he2
    cases he2
    exact expired_after now2 (now + latency) t v ht hlater
  have habsent := cacheGet_expired now2 _ req.key hgone
  refine ⟨habsent, ?_⟩
  intro net2 latency2 req2 hacc hkey hd
  rw [← hkey] at habsent
  obtain ⟨tail, hs, hor⟩ := handle_sets env net2 now2 latency2
    (sweep (handle env net now latency store req).store sweeps) req2 hacc
  have hup : (handle env net2 now2 latency2
      (sweep (handle env net now latency store req).store sweeps) req2).trace.any
        Effect.isUpstream = true := by
    rcases hor with ⟨_, hup⟩ | ⟨_, hup⟩ | ⟨c, hc, _⟩
    · exact hup
    · exact hup
    · rw [habsent] at hc
      cases hc
  have hlabel : (interpret req2.headers).label
      (cacheGet now2 (sweep (handle env net now latency store req).store sweeps)
        req2.key).1.isSome = "MISS" := by
    rw [hd, habsent]
    rfl
  rw [hlabel] at hs
  refine ⟨by rw [hs]; rfl, hup, ?_⟩
  intro hnox
  have hres : (handle env net2 now2 latency2
      (sweep (handle env net now latency store req).store sweeps) req2).res =
      { status := (handle env net2 now2 latency2
          (sweep (handle env net now latency store req).store sweeps) req2).res.status
        sets := ("X-Cache", "MISS") :: tail
        body := (handle env net2 now2 latency2
          (sweep (handle env net now latency store req).store sweeps) req2).res.body } := by
    rw [← hs]
  rw [hres]
  apply getHeader_first _ _ _ _ _ _ (by decide)
  rcases hor with ⟨rfl, _⟩ | ⟨⟨status, data, hnet⟩, _⟩ | ⟨c, hc, _⟩
  · intro e he
    cases he
  · exact hnox status tail data hnet
  · rw [habsent] at hc
    cases hc

/-- C4 (amended), evaluated on `ttl=1`, a lookup 1.5 seconds later and one sweep of
the reaper after one second. -/
theorem ttl_expiry_witness :
    (cacheGet 1500 (sweep (handle sampleEnv (always 200 [] [1]) 0 0 Store.empty
      (withTtl (getOf "http://a/x") "1")).store [1000])
      (withTtl (getOf "http://a/x") "1").key).1 = none ∧
    (handle sampleEnv (always 200 [] [2]) 1500 0
      (sweep (handle sampleEnv (always 200 [] [1]) 0 0 Store.empty
        (withTtl (getOf "http://a/x") "1")).store [1000])
      (getOf "http://a/x")).res.sets.head? = some ("X-Cache", "MISS") ∧
    (handle sampleEnv (always 200 [] [2]) 1500 0
      (sweep (handle sampleEnv (always 200 [] [1]) 0 0 Store.empty
        (withTtl (getOf "http://a/x") "1")).store [1000])
      (getOf "http://a/x")).trace.any Effect.isUpstream = true :=
  have hw := ttl_expiry sampleEnv (always 200 [] [1]) 0 1500 0 Store.empty
    (withTtl (getOf "http://a/x") "1") "1" 1 [1000] rfl (by decide) (by decide) (by decide)
    (by decide)
  ⟨hw.1, (hw.2 (always 200 [] [2]) 0 (getOf "http://a/x") (by decide) (by decide)
      (by decide)).1,
    (hw.2 (always 200 [] [2]) 0 (getOf "http://a/x") (by decide) (by decide) (by decide)).2.1⟩

/-- C10, counterexample: with an entry of body `[1]` in the cache, a `no-cache` request
whose upstream answers 200 with a JSON content type and an empty body is answered
500 and leaves the old entry in place; a `no-cache` request whose upstream response
has the header `x-cache: MISS` is followed by a replay from the cache that shows
`X-Cache: MISS`; and a `no-cache` request with `ttl=-1` stores an entry that the
following request does not find. -/
theorem bypass_counterexample :
    ((handle sampleEnv (always 200 [("content-type", "application/json")] []) 10 0
      (handle sampleEnv (always 200 [] [1]) 0 0 Store.empty (getOf "http://a/x")).store
      (withHeader (getOf "http://a/x") "cache-control" "no-cache")).store "http://a/x").map
        (fun e => e.value.data) = some (.raw [1]) ∧
    (handle sampleEnv (always 200 [("content-type", "application/json")] []) 10 0
      (handle sampleEnv (always 200 [] [1]) 0 0 Store.empty (getOf "http://a/x")).store
      (withHeader (getOf "http://a/x") "cache-control" "no-cache")).res.status = 500 ∧
    (handle sampleEnv (always 500 [] []) 20 0
      (handle sampleEnv (always 200 [("x-cache", "MISS")] [2]) 10 0 Store.empty
        (withHeader (getOf "http://a/x") "cache-control" "no-cache")).store
      (getOf "http://a/x")).trace = [.cacheGet "http://a/x"] ∧
    (handle sampleEnv (always 500 [] []) 20 0
      (handle sampleEnv (always 200 [("x-cache", "MISS")] [2]) 10 0 Store.empty
        (withHeader (getOf "http://a/x") "cache-control" "no-cache")).store
      (getOf "http://a/x")).res.getHeader "X-Cache" = some "MISS" ∧
    (handle sampleEnv (always 200 [] [3]) 10 0
      (handle sampleEnv (always 200 [] [2]) 10 0 Store.empty
        (withTtl (withHeader (getOf "http://a/x") "cache-control" "no-cache") "-1")).store
      (getOf "http://a/x")).res.sets.head? = some ("X-Cache", "MISS") := by
  decide

/-- C10 (amended): an accepted request with `cache-control: no-cache` calls the upstream
whatever the cache holds.  When the upstream response has a status below 400 and
its body is not a JSON-typed body on which `JSON.parse` throws, the entry at the
key afterwards is exactly the new response (status, headers, body), stamped with the
time of the write, whatever was there before; and an accepted request without
cache directive for that key, made while this entry has not expired, is served
from it without an upstream call: the new status, headers and body, with
`X-Cache: HIT` when the stored headers have no `x-cache` header of their own. -/
theorem bypass_refreshes (env : Env) (net : UpstreamCall → NetResult) (now : Int)
    (latency : Nat) (store : Store) (req : Request)
    (h : accepted env req = true)
    (hcc : req.headers.lookup "cache-control" = some "no-cache") :
    (handle env net now latency store req).trace.any Effect.isUpstream = true ∧
    ∀ (status : Nat) (headers : Headers) (data : Bytes) (responseData : Body),
      net req.call = .response status headers data → status < 400 →
      responseDataOf env headers data = some responseData →
      (handle env net now latency store req).res =
        { status := status, sets := ("X-Cache", "BYPASS") :: headers, body := responseData } ∧
      (handle env net now latency store req).store req.key =
        some { value := { status := status, headers := headers, data := responseData }
               insertedAt := now + latency
               ttlSeconds := retentionOf env (ttlOf req.queryTtl) } ∧
      ∀ (net2 : UpstreamCall → NetResult) (now2 : Int) (latency2 : Nat) (req2 : Request),
        accepted env req2 = true → req2.key = req.key →
        interpret req2.headers = .USE_CACHE →
        expired now2 { value := { status := status, headers := headers, data := responseData }
                       insertedAt := now + latency
                       ttlSeconds := retentionOf env (ttlOf req.queryTtl) } = false →
        (handle env net2 now2 latency2 (handle env net now latency store req).store req2).res =
          { status := status, sets := ("X-Cache", "HIT") :: headers, body := responseData } ∧
        (handle env net2 now2 latency2 (handle env net now latency store req).store req2).trace
          = [.cacheGet req.key] ∧
        ((∀ e ∈ headers, sameName "X-Cache" e = false) →
          (handle env net2 now2 latency2 (handle env net now latency store req).store
            req2).res.getHeader "X-Cache" = some "HIT") := by
  have hbypass := handle_bypass env net now latency store req h hcc
  refine ⟨?_, ?_⟩
  · rw [hbypass]
    exact (forward_observed env net (now + latency) req req.key (some "no-cache")
      (ttlOf req.queryTtl) "BYPASS" (cacheGet now store req.key).2 [.cacheGet req.key]).2.2
  · intro status headers data responseData hnet hs hparse
    have hstored := forward_stored env net (now + latency) req req.key (some "no-cache")
      (ttlOf req.queryTtl) [("X-Cache", "BYPASS")] (cacheGet now store req.key).2
      [.cacheGet req.key] status headers data responseData hnet hparse hs (by simp)
    have hentry : (handle env net now latency store req).store req.key =
        some { value := { status := status, headers := headers, data := responseData }
               insertedAt := now + latency
               ttlSeconds := retentionOf env (ttlOf req.queryTtl) } := by
      rw [hbypass, hstored]
      exact cacheSet_lookup env _ _ _ _ _
    refine ⟨?_, hentry, ?_⟩
    · rw [hbypass, hstored]
      rfl
    · intro net2 now2 latency2 req2 hacc2 hkey hd2 hlive
      rw [← hkey] at hentry
      have hsecond := handle_hit_live env net2 now2 latency2
        (handle env net now latency store req).store req2 _ hacc2 hd2 hentry hlive
      rw [hsecond, hkey]
      refine ⟨rfl, rfl, ?_⟩
      intro hx
      exact getHeader_first _ _ _ _ _ _ (by decide) hx

/-- C10 (amended), evaluated on a first response `[1]`, a `no-cache` request answered
`[2]` and a third request five milliseconds later. -/
theorem bypass_refreshes_witness :
    (handle sampleEnv (always 200 [] [2]) 10 0
      (handle sampleEnv (always 200 [] [1]) 0 0 Store.empty (getOf "http://a/x")).store
      (withHeader (getOf "http://a/x") "cache-control" "no-cache")).res =
        { status := 200, sets := [("X-Cache", "BYPASS")], body := .raw [2] } ∧
    (handle sampleEnv (always 500 [] []) 15 0
      (handle sampleEnv (always 200 [] [2]) 10 0
        (handle sampleEnv (always 200 [] [1]) 0 0 Store.empty (getOf "http://a/x")).store
        (withHeader (getOf "http://a/x") "cache-control" "no-cache")).store
      (getOf "http://a/x")).res =
        { status := 200, sets := [("X-Cache", "HIT")], body := .raw [2] } :=
  have hw := (bypass_refreshes sampleEnv (always 200 [] [2]) 10 0
    (handle sampleEnv (always 200 [] [1]) 0 0 Store.empty (getOf "http://a/x")).store
    (withHeader (getOf "http://a/x") "cache-control" "no-cache") (by decide) (by decide)).2
    200 [] [2] (.raw [2]) rfl (by decide) (by decide)
  ⟨hw.1, (hw.2.2 (always 500 [] []) 15 0 (getOf "http://a/x") (by decide) (by decide)
    (by decide) (by decide)).1⟩

/-- C11, counterexample: on `ttl=0` the parameter is a non-empty string, so the handler
hands `parseInt("0") = 0` to `cache.set`, and not 3600; on `ttl=abc` it hands `NaN`. -/
theorem retention_counterexample :
    ttlOf (withTtl (getOf "http://a/x") "0").queryTtl = some 0 ∧
    ttlOf (withTtl (getOf "http://a/x") "0").queryTtl ≠ some 3600 ∧
    (handle sampleEnv (always 200 [] [1]) 0 0 Store.empty
      (withTtl (getOf "http://a/x") "0")).trace =
        [.cacheGet "http://a/x", .upstream (withTtl (getOf "http://a/x") "0").call,
          .cacheSet "http://a/x" { status := 200, headers := [], data := .raw [1] } (some 0)] ∧
    (handle sampleEnv (always 200 [] [1]) 0 0 Store.empty
      (withTtl (getOf "http://a/x") "abc")).trace =
        [.cacheGet "http://a/x", .upstream (withTtl (getOf "http://a/x") "abc").call,
          .cacheSet "http://a/x" { status := 200, headers := [], data := .raw [1] } none] := by
  decide

/-- C11 (amended): take a request whose response is stored and whose `ttl` parameter,
when it parses to an integer, parses to one that a JavaScript number holds exactly.
The handler writes one response, on the key of the request, and the TTL it hands to
`cache.set` is 3600 seconds when the `ttl` query parameter is absent or empty and
`parseInt` of the parameter otherwise.  When that value is an integer `t` other
than zero, a lookup of the key in the store the request leaves finds the written
response at every time up to `t` seconds after the write and nothing later, so for
a negative `t` it finds nothing from the write on, and for an absent or empty
parameter it finds the response for 3600 seconds.  When the value is zero or `NaN`,
the default retention window of the cache itself takes the place of `t`. -/
theorem retention_window (env : Env) (net : UpstreamCall → NetResult) (now : Int)
    (latency : Nat) (store : Store) (req : Request)
    (hset : (handle env net now latency store req).trace.any Effect.isSet = true)
    (_hexact : ∀ t, ttlOf req.queryTtl = some t → exactNumber t = true) :
    ((req.queryTtl = none ∨ req.queryTtl = some "") → ttlOf req.queryTtl = some 3600) ∧
    (∀ s, req.queryTtl = some s → s ≠ "" → ttlOf req.queryTtl = parseInt s) ∧
    ∃ v,
      Effect.cacheSet req.key v (ttlOf req.queryTtl) ∈
        (handle env net now latency store req).trace ∧
      (∀ k w t, Effect.cacheSet k w t ∈ (handle env net now latency store req).trace →
        k = req.key ∧ w = v ∧ t = ttlOf req.queryTtl) ∧
      (∀ t, ttlOf req.queryTtl = some t → t ≠ 0 → ∀ now2 : Int,
        (cacheGet now2 (handle env net now latency store req).store req.key).1 =
          if now + latency + t * 1000 < now2 then none else some v) ∧
      (∀ t, ttlOf req.queryTtl = some t → t < 0 → ∀ now2 : Int, now + latency ≤ now2 →
        (cacheGet now2 (handle env net now latency store req).store req.key).1 = none) ∧
      ((req.queryTtl = none ∨ req.queryTtl = some "") → ∀ now2 : Int,
        (cacheGet now2 (handle env net now latency store req).store req.key).1 =
          if now + latency + 3600 * 1000 < now2 then none else some v) ∧
      ((ttlOf req.queryTtl = some 0 ∨ ttlOf req.queryTtl = none) → ∀ now2 : Int,
        (cacheGet now2 (handle env net now latency store req).store req.key).1 =
          if env.stdTTL ≠ 0 ∧ now + latency + env.stdTTL * 1000 < now2 then none
          else some v) := by
  have habsent : (req.queryTtl = none ∨ req.queryTtl = some "") →
      ttlOf req.queryTtl = some 3600 := by
    intro hq
    rcases hq with hq | hq <;> rw [hq] <;> rfl
  obtain ⟨v, hmem, huniq, hentry⟩ := handle_written env net now latency store req hset
  have hnonzero : ∀ t, ttlOf req.queryTtl = some t → t ≠ 0 → ∀ now2 : Int,
      (cacheGet now2 (handle env net now latency store req).store req.key).1 =
        if now + latency + t * 1000 < now2 then none else some v := by
    intro t ht h0 now2
    rw [cacheGet_value now2 _ req.key _ hentry, ht]
    simp [expired, retentionOf, h0]
  refine ⟨habsent, ?_, v, hmem, huniq, hnonzero, ?_, ?_, ?_⟩
  · intro s hq hs
    rw [hq]
    simp [ttlOf, hs]
  · intro t ht hneg now2 hlater
    rw [hnonzero t ht (by omega) now2]
    have hlt : now + latency + t * 1000 < now2 := by omega
    simp [hlt]
  · intro hq now2
    exact hnonzero 3600 (habsent hq) (by decide) now2
  · intro hz now2
    rw [cacheGet_value now2 _ req.key _ hentry]
    rcases hz with hz | hz <;> rw [hz] <;> simp [expired, retentionOf]

/-- C11 (amended), evaluated on `ttl=120` with the write at time 0: the response is
found 120 seconds later and not one millisecond after that. -/
theorem retention_window_witness :
    ttlOf (withTtl (getOf "http://a/x") "120").queryTtl = some 120 ∧
    ∃ v,
      Effect.cacheSet (withTtl (getOf "http://a/x") "120").key v
          (ttlOf (withTtl (getOf "http://a/x") "120").queryTtl) ∈
        (handle sampleEnv (always 200 [] [1]) 0 0 Store.empty
          (withTtl (getOf "http://a/x") "120")).trace ∧
      (cacheGet 120000 (handle sampleEnv (always 200 [] [1]) 0 0 Store.empty
        (withTtl (getOf "http://a/x") "120")).store
        (withTtl (getOf "http://a/x") "120").key).1 = some v ∧
      (cacheGet 120001 (handle sampleEnv (always 200 [] [1]) 0 0 Store.empty
        (withTtl (getOf "http://a/x") "120")).store
        (withTtl (getOf "http://a/x") "120").key).1 = none :=
  have hw := (retention_window sampleEnv (always 200 [] [1]) 0 0 Store.empty
    (withTtl (getOf "http://a/x") "120") (by decide)
    (by
      intro t ht
      have h120 : ttlOf (withTtl (getOf "http://a/x") "120").queryTtl = some 120 := by decide
      rw [h120] at ht
      cases ht
      decide)).2.2
  ⟨by decide,
    match hw with
    | ⟨v, hmem, _, hlive, _, _, _⟩ =>
      ⟨v, hmem,
        by
          have h1 := hlive 120 (by decide) (by decide) 120000
          simpa using h1,
        by
          have h2 := hlive 120 (by decide) (by decide) 120001
          simpa using h2⟩⟩

end CachingProxy
